import Mathlib

set_option maxRecDepth 20000

/-!
Verification development for the node-json5-parser repository (a JSON5
fork of node-jsonc-parser).

Source text is modelled as a `List Char`: one list element per code unit
of the JavaScript source string.  All offsets and lengths count list
elements, matching the code-unit offsets of the source.  The embedded
functions mirror, declaration by declaration:

* `src/main.ts` — the public enums and option/visitor types;
* `src/impl/scanner.ts` — the combinator-based JSON5 scanner
  (`createScanner`), whose local combinators work on lexeme/consumed
  strings and whose `scanNext` drives `computeNextScanState`;
* `src/impl/grammar.ts` — the standalone length-based grammar
  combinators (`ScanResult` records with `success`/`length`/... fields)
  together with the identifier/keyword productions.

JavaScript `Error` objects carried inside failure results are only
human-readable messages and are not observable through any claim; the
embedded failure results keep just the `consumed` string.
-/

namespace JSON5

/-- Convert a Lean string literal to the `List Char` model of a
JavaScript string. -/
def str (s : String) : List Char := s.data

/-- The double-quote character `"` (code unit 0x22). -/
def dq : Char := Char.ofNat 34

/-- The single-quote character (code unit 0x27). -/
def sq : Char := Char.ofNat 39

/-- The backslash character (code unit 0x5C). -/
def bsl : Char := Char.ofNat 92

/-- SyntaxKind from src/main.ts: a TypeScript const enum whose members are
numbered 0..19 in declaration order. -/
inductive SyntaxKind where
  | Unknown
  | EOF
  | OpenBraceToken
  | CloseBraceToken
  | OpenBracketToken
  | CloseBracketToken
  | CommaToken
  | ColonToken
  | NullKeyword
  | TrueKeyword
  | FalseKeyword
  | StringLiteral
  | NumericLiteral
  | Identifier
  | InfinityKeyword
  | NaNKeyword
  | LineCommentTrivia
  | BlockCommentTrivia
  | LineBreakTrivia
  | Trivia
  deriving DecidableEq, Repr

/-- Numeric value of a SyntaxKind member (the TypeScript const-enum
numbering, used by scanNextNonTrivia's range test). -/
def SyntaxKind.val : SyntaxKind → Nat
  | .Unknown => 0
  | .EOF => 1
  | .OpenBraceToken => 2
  | .CloseBraceToken => 3
  | .OpenBracketToken => 4
  | .CloseBracketToken => 5
  | .CommaToken => 6
  | .ColonToken => 7
  | .NullKeyword => 8
  | .TrueKeyword => 9
  | .FalseKeyword => 10
  | .StringLiteral => 11
  | .NumericLiteral => 12
  | .Identifier => 13
  | .InfinityKeyword => 14
  | .NaNKeyword => 15
  | .LineCommentTrivia => 16
  | .BlockCommentTrivia => 17
  | .LineBreakTrivia => 18
  | .Trivia => 19

/-- ScanError from src/main.ts: only these three members exist. -/
inductive ScanError where
  | None
  | UnexpectedEndOfComment
  | UnexpectedEndOfString
  deriving DecidableEq, Repr

/-- ParseErrorCode from src/main.ts (const enum, twelve members in
declaration order). -/
inductive ParseErrorCode where
  | InvalidSymbol
  | InvalidNumberFormat
  | PropertyNameExpected
  | ValueExpected
  | ColonExpected
  | CommaExpected
  | CloseBraceExpected
  | CloseBracketExpected
  | EndOfFileExpected
  | UnexpectedEndOfComment
  | UnexpectedEndOfString
  | InvalidString
  deriving DecidableEq, Repr

/-- printParseErrorCode from src/main.ts. -/
def printParseErrorCode : ParseErrorCode → String
  | .InvalidSymbol => "InvalidSymbol"
  | .InvalidNumberFormat => "InvalidNumberFormat"
  | .PropertyNameExpected => "PropertyNameExpected"
  | .ValueExpected => "ValueExpected"
  | .ColonExpected => "ColonExpected"
  | .CommaExpected => "CommaExpected"
  | .CloseBraceExpected => "CloseBraceExpected"
  | .CloseBracketExpected => "CloseBracketExpected"
  | .EndOfFileExpected => "EndOfFileExpected"
  | .UnexpectedEndOfComment => "UnexpectedEndOfComment"
  | .UnexpectedEndOfString => "UnexpectedEndOfString"
  | .InvalidString => "InvalidString"

/-- Every member of the ParseErrorCode enum, in declaration order. -/
def allParseErrorCodes : List ParseErrorCode :=
  [.InvalidSymbol, .InvalidNumberFormat, .PropertyNameExpected, .ValueExpected,
   .ColonExpected, .CommaExpected, .CloseBraceExpected, .CloseBracketExpected,
   .EndOfFileExpected, .UnexpectedEndOfComment, .UnexpectedEndOfString, .InvalidString]

/-- ParseOptions from src/main.ts: the interface declares exactly one
(optional) field, allowEmptyContent. -/
structure ParseOptions where
  allowEmptyContent : Option Bool
  deriving DecidableEq, Repr

namespace scanner

/-- ScanResult of the combinators local to createScanner in
src/impl/scanner.ts: a success carries the scanned lexeme, a failure
carries the input consumed before failing (the Error message is
dropped; it is not observable). -/
inductive SResult where
  | success (lexeme : List Char)
  | failure (consumed : List Char)
  deriving DecidableEq, Repr

/-- A Scanner in src/impl/scanner.ts: a function from input to ScanResult. -/
def SScanner := List Char → SResult

/-- isSuccess from src/impl/scanner.ts (the typeof check is always true). -/
def isSuccess : SResult → Bool
  | .success _ => true
  | .failure _ => false

/-- isFailure from src/impl/scanner.ts (the instanceof check is always true). -/
def isFailure : SResult → Bool
  | .success _ => false
  | .failure _ => true

/-- The string a result accounts for: the lexeme of a success, the
consumed prefix of a failure (the `isFailure(scanResult) ?
scanResult.consumed : scanResult.lexeme` pattern in computeNextScanState). -/
def covered : SResult → List Char
  | .success l => l
  | .failure c => c

/-- Length of the covered string of a result. -/
def resLen (r : SResult) : Nat := (covered r).length

/-- JavaScript string comparison `a >= b` (lexicographic, by code unit);
used by combineOr to pick between two failures. -/
def jsStrGE : List Char → List Char → Bool
  | [], [] => true
  | [], _ :: _ => false
  | _ :: _, [] => true
  | a :: as, b :: bs => if a = b then jsStrGE as bs else decide (b < a)

/-- literal(text) from src/impl/scanner.ts. -/
def literal (t : List Char) : SScanner := fun input =>
  if t.isPrefixOf input then .success t else .failure []

/-- match(pattern) from src/impl/scanner.ts, specialised to the
single-character class regexes it is applied to (`/^[0-9a-fA-F]/`,
`/^[0-9]/`, `/^[1-9]/`): a leading hit of such a pattern is exactly one
character satisfying the class predicate. -/
def matchClass (p : Char → Bool) : SScanner := fun input =>
  match input with
  | c :: _ => if p c then .success [c] else .failure []
  | [] => .failure []

/-- combineAnd from src/impl/scanner.ts. -/
def combineAnd : SResult → SResult → SResult
  | .failure c₁, .failure c₂ => .failure (c₁ ++ c₂)
  | .failure c₁, .success _ => .failure c₁
  | .success l₁, .failure c₂ => .failure (l₁ ++ c₂)
  | .success l₁, .success l₂ => .success (l₁ ++ l₂)

/-- combineOr from src/impl/scanner.ts: greedy on success; between two
failures it keeps the one whose consumed string is `>=` in JavaScript's
lexicographic string order. -/
def combineOr : SResult → SResult → SResult
  | .failure c₁, .failure c₂ => if jsStrGE c₁ c₂ then .failure c₁ else .failure c₂
  | .success l₁, .failure _ => .success l₁
  | .failure _, .success l₂ => .success l₂
  | .success l₁, .success l₂ =>
      if l₂.length < l₁.length then .success l₁ else .success l₂

/-- and(first, second) from src/impl/scanner.ts (the variadic loop,
restricted to two scanners; longer chains are the left-nested iteration
of this binary step, exactly as the loop accumulates its result). -/
def and2 (f g : SScanner) : SScanner := fun input =>
  match f input with
  | .failure c => .failure c
  | .success l => combineAnd (.success l) (g (input.drop l.length))

/-- or(first, second) from src/impl/scanner.ts (the variadic loop,
restricted to two scanners; longer chains left-nest this step). -/
def or2 (f g : SScanner) : SScanner := fun input => combineOr (f input) (g input)

/-- scanNothing from src/impl/scanner.ts. -/
def scanNothing : SScanner := fun _ => .success []

/-- scanEmpty from src/impl/scanner.ts. -/
def scanEmpty : SScanner := fun input =>
  if input.length = 0 then .success [] else .failure []

/-- complete(scanner) from src/impl/scanner.ts. -/
def complete (s : SScanner) : SScanner := and2 s scanEmpty

/-- The do/while loop body of zeroOrMore in src/impl/scanner.ts,
with explicit fuel (the loop strictly shrinks the remaining input for
every scanner it is instantiated with, so fuel `input.length + 1` is
never exhausted on those). -/
def zeroOrMoreGo (s : SScanner) (input : List Char) : Nat → SResult → SResult
  | 0, r => r
  | fuel + 1, r =>
    let remaining := input.drop (covered r).length
    match s remaining with
    | .failure _ => r
    | .success l =>
      let r' := combineAnd r (.success l)
      if 0 < remaining.length then zeroOrMoreGo s input fuel r' else r'

/-- zeroOrMore(scanner) from src/impl/scanner.ts. -/
def zeroOrMore (s : SScanner) : SScanner := fun input =>
  match s input with
  | .failure _ => scanNothing input
  | .success l => zeroOrMoreGo s input (input.length + 1) (.success l)

/-- oneOrMore(scanner) from src/impl/scanner.ts. -/
def oneOrMore (s : SScanner) : SScanner := fun input =>
  match s input with
  | .failure c => .failure c
  | .success l => combineAnd (.success l) (zeroOrMore s (input.drop l.length))

/-- optional(scanner) from src/impl/scanner.ts. -/
def optional (s : SScanner) : SScanner := or2 s scanNothing

/-- butNot(scanner, not) from src/impl/scanner.ts. -/
def butNot (s n : SScanner) : SScanner := fun input =>
  match s input with
  | .success l => if isSuccess (n input) then .failure l else .success l
  | .failure c => .failure c

/-- lookaheadNot(scanner, notFollowedBy) from src/impl/scanner.ts. -/
def lookaheadNot (s nf : SScanner) : SScanner := fun input =>
  match s input with
  | .success l =>
      if isSuccess (nf (input.drop l.length)) then .failure l else .success l
  | .failure c => .failure c

/-- scanSourceCharacter from src/impl/scanner.ts: any code point
(`codePointAt(0)` / `String.fromCodePoint`); in the list model this is
one element whenever the input is non-empty. -/
def scanSourceCharacter : SScanner := fun input =>
  match input with
  | c :: _ => .success [c]
  | [] => .failure []

/-- scanHexDigit from src/impl/scanner.ts. -/
def scanHexDigit : SScanner :=
  matchClass fun c => ( '0' ≤ c ∧ c ≤ '9') ∨ ( 'a' ≤ c ∧ c ≤ 'f') ∨ ( 'A' ≤ c ∧ c ≤ 'F')

/-- scanDecimalDigit from src/impl/scanner.ts. -/
def scanDecimalDigit : SScanner := matchClass fun c => '0' ≤ c ∧ c ≤ '9'

/-- scanNonZeroDigit from src/impl/scanner.ts. -/
def scanNonZeroDigit : SScanner := matchClass fun c => '1' ≤ c ∧ c ≤ '9'

/-- scanExponentIndicator from src/impl/scanner.ts. -/
def scanExponentIndicator : SScanner := or2 (literal (str "e")) (literal (str "E"))

/-- scanHexIntegerLiteral from src/impl/scanner.ts. -/
def scanHexIntegerLiteral : SScanner :=
  or2 (and2 (literal (str "0x")) (oneOrMore scanHexDigit))
      (and2 (literal (str "0X")) (oneOrMore scanHexDigit))

/-- scanDecimalDigits from src/impl/scanner.ts. -/
def scanDecimalDigits : SScanner := oneOrMore scanDecimalDigit

/-- scanSignedInteger from src/impl/scanner.ts. -/
def scanSignedInteger : SScanner :=
  or2 (or2 scanDecimalDigits (and2 (literal (str "+")) scanDecimalDigits))
      (and2 (literal (str "-")) scanDecimalDigits)

/-- scanExponentPart from src/impl/scanner.ts. -/
def scanExponentPart : SScanner := and2 scanExponentIndicator scanSignedInteger

/-- scanDecimalIntegerLiteral from src/impl/scanner.ts. -/
def scanDecimalIntegerLiteral : SScanner :=
  or2 (literal (str "0")) (and2 scanNonZeroDigit (optional scanDecimalDigits))

/-- scanDecimalLiteral from src/impl/scanner.ts. -/
def scanDecimalLiteral : SScanner :=
  or2 (or2
        (and2 (and2 (and2 scanDecimalIntegerLiteral (literal (str ".")))
                    (optional scanDecimalDigits))
              (optional scanExponentPart))
        (and2 (and2 (literal (str ".")) scanDecimalDigits) (optional scanExponentPart)))
      (and2 scanDecimalIntegerLiteral (optional scanExponentPart))

/-- scanNumericLiteral from src/impl/scanner.ts. -/
def scanNumericLiteral : SScanner := or2 scanDecimalLiteral scanHexIntegerLiteral

/-- scanJSON5NumericLiteral from src/impl/scanner.ts. -/
def scanJSON5NumericLiteral : SScanner :=
  or2 (or2 scanNumericLiteral (literal (str "Infinity"))) (literal (str "NaN"))

/-- scanJSON5Number from src/impl/scanner.ts. -/
def scanJSON5Number : SScanner :=
  or2 (or2 scanJSON5NumericLiteral (and2 (literal (str "+")) scanJSON5NumericLiteral))
      (and2 (literal (str "-")) scanJSON5NumericLiteral)

/-- scanLineTerminator from src/impl/scanner.ts. -/
def scanLineTerminator : SScanner :=
  or2 (or2 (or2 (literal (str "\n")) (literal (str "\r")))
           (literal (str "\u2028")))
      (literal (str "\u2029"))

/-- scanLineTerminatorSequence from src/impl/scanner.ts (note: the
source's alternative list here has no U+2029). -/
def scanLineTerminatorSequence : SScanner :=
  or2 (or2 (or2 (literal (str "\n"))
                (lookaheadNot (literal (str "\r")) (literal (str "\n"))))
           (literal (str "\u2028")))
      (literal (str "\r\n"))

/-- scanLineContinuation from src/impl/scanner.ts. -/
def scanLineContinuation : SScanner := and2 (literal [bsl]) scanLineTerminatorSequence

/-- scanHexEscapeSequence from src/impl/scanner.ts. -/
def scanHexEscapeSequence : SScanner :=
  and2 (and2 (literal (str "x")) scanHexDigit) scanHexDigit

/-- scanUnicodeEscapeSequence from src/impl/scanner.ts. -/
def scanUnicodeEscapeSequence : SScanner :=
  and2 (and2 (and2 (and2 (literal (str "u")) scanHexDigit) scanHexDigit) scanHexDigit)
       scanHexDigit

/-- scanSingleEscapeCharacter from src/impl/scanner.ts. -/
def scanSingleEscapeCharacter : SScanner :=
  or2 (or2 (or2 (or2 (or2 (or2 (or2 (or2 (literal [sq]) (literal [dq]))
                                    (literal [bsl]))
                               (literal (str "b")))
                          (literal (str "f")))
                     (literal (str "n")))
                (literal (str "r")))
           (literal (str "t")))
      (literal (str "v"))

/-- scanEscapeCharacter from src/impl/scanner.ts. -/
def scanEscapeCharacter : SScanner :=
  or2 (or2 (or2 scanSingleEscapeCharacter scanDecimalDigit) (literal (str "x")))
      (literal (str "u"))

/-- scanNonEscapeCharacter from src/impl/scanner.ts. -/
def scanNonEscapeCharacter : SScanner := fun input =>
  match scanSourceCharacter input with
  | .success l =>
      if isSuccess (scanEscapeCharacter input) then .failure []
      else if isSuccess (scanLineTerminator input) then .failure []
      else .success l
  | .failure c => .failure c

/-- scanCharacterEscapeSequence from src/impl/scanner.ts. -/
def scanCharacterEscapeSequence : SScanner :=
  or2 scanSingleEscapeCharacter scanNonEscapeCharacter

/-- scanEscapeSequence from src/impl/scanner.ts. -/
def scanEscapeSequence : SScanner :=
  or2 (or2 (or2 scanCharacterEscapeSequence
                (lookaheadNot (literal (str "0")) scanDecimalDigit))
           scanHexEscapeSequence)
      scanUnicodeEscapeSequence

/-- scanJSON5SingleStringCharacter from src/impl/scanner.ts. -/
def scanJSON5SingleStringCharacter : SScanner :=
  or2 (or2 (or2 (or2 (butNot scanSourceCharacter
                             (or2 (or2 (literal [sq]) (literal [bsl])) scanLineTerminator))
                     (and2 (literal [bsl]) scanEscapeSequence))
                scanLineContinuation)
           (literal (str "\u2028")))
      (literal (str "\u2029"))

/-- scanJSON5DoubleStringCharacter from src/impl/scanner.ts. -/
def scanJSON5DoubleStringCharacter : SScanner :=
  or2 (or2 (or2 (or2 (butNot scanSourceCharacter
                             (or2 (or2 (literal [dq]) (literal [bsl])) scanLineTerminator))
                     (and2 (literal [bsl]) scanEscapeSequence))
                scanLineContinuation)
           (literal (str "\u2028")))
      (literal (str "\u2029"))

/-- scanJSON5SingleStringCharacters from src/impl/scanner.ts. -/
def scanJSON5SingleStringCharacters : SScanner := oneOrMore scanJSON5SingleStringCharacter

/-- scanJSON5DoubleStringCharacters from src/impl/scanner.ts. -/
def scanJSON5DoubleStringCharacters : SScanner := oneOrMore scanJSON5DoubleStringCharacter

/-- scanJSON5String from src/impl/scanner.ts. -/
def scanJSON5String : SScanner :=
  or2 (and2 (and2 (literal [dq]) (zeroOrMore scanJSON5DoubleStringCharacters)) (literal [dq]))
      (and2 (and2 (literal [sq]) (zeroOrMore scanJSON5SingleStringCharacters)) (literal [sq]))

/-- scanSingleLineCommentChar from src/impl/scanner.ts. -/
def scanSingleLineCommentChar : SScanner := butNot scanSourceCharacter scanLineTerminator

/-- The recursion of scanSingleLineCommentChars (the production refers to
itself through `optional`), with explicit fuel; every recursive step
first consumes one character, so fuel `input.length + 1` is never
exhausted. -/
def scanSingleLineCommentCharsGo : Nat → SScanner
  | 0 => fun _ => .failure []
  | fuel + 1 => and2 scanSingleLineCommentChar (optional (scanSingleLineCommentCharsGo fuel))

/-- scanSingleLineCommentChars from src/impl/scanner.ts. -/
def scanSingleLineCommentChars : SScanner := fun input =>
  scanSingleLineCommentCharsGo (input.length + 1) input

/-- scanSingleLineComment from src/impl/scanner.ts. -/
def scanSingleLineComment : SScanner :=
  and2 (literal (str "//")) (optional scanSingleLineCommentChars)

/-- scanMultiLineNotAsteriskChar from src/impl/scanner.ts. -/
def scanMultiLineNotAsteriskChar : SScanner :=
  butNot scanSourceCharacter (literal (str "*"))

/-- scanMultiLineCommentChars from src/impl/scanner.ts. -/
def scanMultiLineCommentChars : SScanner :=
  oneOrMore (or2 scanMultiLineNotAsteriskChar
                 (lookaheadNot (literal (str "*")) (literal (str "/"))))

/-- scanMultiLineComment from src/impl/scanner.ts. -/
def scanMultiLineComment : SScanner :=
  and2 (and2 (literal (str "/*")) (optional scanMultiLineCommentChars))
       (literal (str "*/"))

/-- isWhiteSpace from src/impl/scanner.ts (character-code test). -/
def isWhiteSpaceChar (c : Char) : Bool :=
  c.val = 0x20 ∨ c.val = 0x09 ∨ c.val = 0x0B ∨ c.val = 0x0C ∨
  c.val = 0xA0 ∨ c.val = 0x1680 ∨ (0x2000 ≤ c.val ∧ c.val ≤ 0x200B) ∨
  c.val = 0x202F ∨ c.val = 0x205F ∨ c.val = 0x3000 ∨ c.val = 0xFEFF

/-- isLineBreak from src/impl/scanner.ts. -/
def isLineBreakChar (c : Char) : Bool :=
  c.val = 0x0A ∨ c.val = 0x0D ∨ c.val = 0x2028 ∨ c.val = 0x2029

/-- isUnknownContentCharacter from src/impl/scanner.ts. -/
def isUnknownContentChar (c : Char) : Bool :=
  if isWhiteSpaceChar c ∨ isLineBreakChar c then false
  else if c.val = 0x7D ∨ c.val = 0x5D ∨ c.val = 0x7B ∨ c.val = 0x5B ∨
          c.val = 0x22 ∨ c.val = 0x3A ∨ c.val = 0x2C ∨ c.val = 0x2F then false
  else true

/-- The character codes handled by the `numbers` group of scanNext's
switch: minus, plus, dot and the ten decimal digits. -/
def isNumberStartChar (c : Char) : Bool :=
  c.val = 0x2D ∨ c.val = 0x2B ∨ c.val = 0x2E ∨ (0x30 ≤ c.val ∧ c.val ≤ 0x39)

/-- The mutable cursor variables of a createScanner instance in
src/impl/scanner.ts. -/
structure ScanState where
  pos : Nat
  value : List Char
  tokenOffset : Nat
  token : SyntaxKind
  lineNumber : Nat
  lineStartOffset : Nat
  tokenLineStartOffset : Nat
  prevTokenLineStartOffset : Nat
  scanError : ScanError
  deriving DecidableEq, Repr

/-- The variable initialisation at the top of createScanner. -/
def initialState : ScanState :=
  { pos := 0, value := [], tokenOffset := 0, token := .Unknown, lineNumber := 0,
    lineStartOffset := 0, tokenLineStartOffset := 0, prevTokenLineStartOffset := 0,
    scanError := .None }

/-- setPosition from src/impl/scanner.ts: it resets pos, value,
tokenOffset, token and scanError, and keeps the line bookkeeping. -/
def setPosition (s : ScanState) (newPosition : Nat) : ScanState :=
  { s with pos := newPosition, value := [], tokenOffset := 0, token := .Unknown,
           scanError := .None }

/-- Value of a hexadecimal digit character (helper for the modelled
string decoder below). -/
def hexDigitVal (c : Char) : Nat :=
  if 0x30 ≤ c.val ∧ c.val ≤ 0x39 then c.toNat - 0x30
  else if 0x61 ≤ c.val ∧ c.val ≤ 0x66 then c.toNat - 0x57
  else if 0x41 ≤ c.val ∧ c.val ≤ 0x46 then c.toNat - 0x37
  else 0

/-- Modelled from the spec: computeNextScanState decodes a successfully
scanned string lexeme by calling the external json5 package
(`JSON5.parse(scanResult.lexeme)`), which is not part of this
repository.  This decoder follows the spec's string-value escape table
(section 4.4): single-character escapes, `\x`/`\u` hex escapes, `\0`,
line continuations (with CR LF collapsed), and any other escaped
character taken literally.  No claim below depends on the decoder's
output values, only on it being a fixed function of the lexeme. -/
def decodeEscapes : Nat → List Char → List Char
  | 0, _ => []
  | _, [] => []
  | fuel + 1, c :: rest =>
    if c = bsl then
      match rest with
      | [] => []
      | e :: rest' =>
        if e.val = 0x62 then Char.ofNat 0x08 :: decodeEscapes fuel rest'
        else if e.val = 0x66 then Char.ofNat 0x0C :: decodeEscapes fuel rest'
        else if e.val = 0x6E then Char.ofNat 0x0A :: decodeEscapes fuel rest'
        else if e.val = 0x72 then Char.ofNat 0x0D :: decodeEscapes fuel rest'
        else if e.val = 0x74 then Char.ofNat 0x09 :: decodeEscapes fuel rest'
        else if e.val = 0x76 then Char.ofNat 0x0B :: decodeEscapes fuel rest'
        else if e.val = 0x30 then Char.ofNat 0x00 :: decodeEscapes fuel rest'
        else if e.val = 0x78 then
          match rest' with
          | h1 :: h2 :: rest'' =>
            Char.ofNat (16 * hexDigitVal h1 + hexDigitVal h2) :: decodeEscapes fuel rest''
          | _ => []
        else if e.val = 0x75 then
          match rest' with
          | h1 :: h2 :: h3 :: h4 :: rest'' =>
            Char.ofNat (4096 * hexDigitVal h1 + 256 * hexDigitVal h2 +
                        16 * hexDigitVal h3 + hexDigitVal h4) :: decodeEscapes fuel rest''
          | _ => []
        else if isLineBreakChar e then
          match rest' with
          | n :: rest'' =>
            if e.val = 0x0D ∧ n.val = 0x0A then decodeEscapes fuel rest''
            else decodeEscapes fuel rest'
          | [] => []
        else e :: decodeEscapes fuel rest'
    else c :: decodeEscapes fuel rest

/-- Modelled from the spec: the decoded value of a complete string
lexeme (delimiters stripped, escapes resolved). -/
def decodeJSON5String (lexeme : List Char) : List Char :=
  decodeEscapes lexeme.length (lexeme.drop 1).dropLast

/-- The line-tracking loop at the top of computeNextScanState: walk the
consumed text, recognising line terminator sequences; returns the final
lineNumber and tokenLineStartOffset.  Fuel `consumed.length + 1`
suffices because every recognised sequence is non-empty. -/
def countLines (consumed : List Char) (prevPos : Nat) :
    Nat → Nat → Nat × Nat → Nat × Nat
  | 0, _, acc => acc
  | fuel + 1, index, (ln, tls) =>
    if index < consumed.length then
      match scanLineTerminatorSequence (consumed.drop index) with
      | .success lex =>
          countLines consumed prevPos fuel (index + lex.length)
            (ln + 1, prevPos + index + lex.length)
      | .failure _ => countLines consumed prevPos fuel (index + 1) (ln, tls)
    else (ln, tls)

/-- computeNextScanState from src/impl/scanner.ts.  `none` models the
`throw new Error('Not all token types have been implemented yet!')`
branch reached for any token kind other than StringLiteral,
NumericLiteral, LineCommentTrivia and BlockCommentTrivia. -/
def computeNextScanState (prev : ScanState) (res : SResult) (kind : SyntaxKind) :
    Option ScanState :=
  let consumed := covered res
  let pos := prev.pos + consumed.length
  let lines := countLines consumed prev.pos (consumed.length + 1) 0
    (prev.lineNumber, prev.tokenLineStartOffset)
  let inter : ScanState :=
    { prev with
      token := kind,
      pos := pos,
      lineNumber := lines.1,
      tokenLineStartOffset := lines.2 }
  match kind, res with
  | .StringLiteral, .failure _ => some { inter with scanError := .UnexpectedEndOfString }
  | .StringLiteral, .success lex => some { inter with value := decodeJSON5String lex }
  | .NumericLiteral, .failure _ => some { inter with token := .Unknown }
  | .NumericLiteral, .success lex => some { inter with value := lex }
  | .LineCommentTrivia, .failure _ => some { inter with scanError := .UnexpectedEndOfComment }
  | .LineCommentTrivia, .success lex => some { inter with value := lex }
  | .BlockCommentTrivia, .failure _ => some { inter with scanError := .UnexpectedEndOfComment }
  | .BlockCommentTrivia, .success lex => some { inter with value := lex }
  | _, _ => none

/-- Reading `text.charCodeAt(i)`; out-of-range reads yield NaN in the
source, which satisfies none of the character tests, modelled here by
the null character (also matched by no test or switch case reachable
out of range). -/
def charAt (text : List Char) (i : Nat) : Char := text.getD i (Char.ofNat 0)

/-- The variable resets at the top of scanNext (value and scanError are
cleared, tokenOffset is saved from pos, lineStartOffset from lineNumber,
prevTokenLineStartOffset from tokenLineStartOffset). -/
def resetForScan (s₀ : ScanState) : ScanState :=
  { s₀ with
    value := [],
    scanError := .None,
    tokenOffset := s₀.pos,
    lineStartOffset := s₀.lineNumber,
    prevTokenLineStartOffset := s₀.tokenLineStartOffset }

/-- The whitespace-trivia loop of scanNext: the run of whitespace
characters from the current position. -/
def wsRun (text : List Char) (pos : Nat) : List Char :=
  (text.drop pos).takeWhile isWhiteSpaceChar

/-- The "read the full word" loop of scanNext's default branch. -/
def unknownRun (text : List Char) (pos : Nat) : List Char :=
  (text.drop pos).takeWhile isUnknownContentChar

/-- The keyword/number classification of a full word in scanNext's
default branch. -/
def unknownWordToken (value : List Char) : SyntaxKind :=
  if isSuccess (complete (literal (str "true")) value) then .TrueKeyword
  else if isSuccess (complete (literal (str "false")) value) then .FalseKeyword
  else if isSuccess (complete (literal (str "null")) value) then .NullKeyword
  else if isSuccess (complete scanJSON5Number value) then .NumericLiteral
  else .Unknown

/-- scanNext from src/impl/scanner.ts (the JSON5 scanner's `scanNext`).
The result is `none` exactly when computeNextScanState would throw. -/
def scanNext (text : List Char) (s₀ : ScanState) : Option ScanState :=
  if text.length ≤ s₀.pos then
    some { resetForScan s₀ with tokenOffset := text.length, token := .EOF }
  else if isWhiteSpaceChar (charAt text s₀.pos) then
    some { resetForScan s₀ with
           pos := s₀.pos + (wsRun text s₀.pos).length,
           value := wsRun text s₀.pos,
           token := .Trivia }
  else if isLineBreakChar (charAt text s₀.pos) then
    if (charAt text s₀.pos).val = 0x0D ∧ (charAt text (s₀.pos + 1)).val = 0x0A then
      some { resetForScan s₀ with
             pos := s₀.pos + 2,
             value := [charAt text s₀.pos, Char.ofNat 0x0A],
             lineNumber := s₀.lineNumber + 1,
             tokenLineStartOffset := s₀.pos + 2,
             token := .LineBreakTrivia }
    else
      some { resetForScan s₀ with
             pos := s₀.pos + 1,
             value := [charAt text s₀.pos],
             lineNumber := s₀.lineNumber + 1,
             tokenLineStartOffset := s₀.pos + 1,
             token := .LineBreakTrivia }
  else if (charAt text s₀.pos).val = 0x7B then
    some { resetForScan s₀ with pos := s₀.pos + 1, token := .OpenBraceToken }
  else if (charAt text s₀.pos).val = 0x7D then
    some { resetForScan s₀ with pos := s₀.pos + 1, token := .CloseBraceToken }
  else if (charAt text s₀.pos).val = 0x5B then
    some { resetForScan s₀ with pos := s₀.pos + 1, token := .OpenBracketToken }
  else if (charAt text s₀.pos).val = 0x5D then
    some { resetForScan s₀ with pos := s₀.pos + 1, token := .CloseBracketToken }
  else if (charAt text s₀.pos).val = 0x3A then
    some { resetForScan s₀ with pos := s₀.pos + 1, token := .ColonToken }
  else if (charAt text s₀.pos).val = 0x2C then
    some { resetForScan s₀ with pos := s₀.pos + 1, token := .CommaToken }
  else if charAt text s₀.pos = dq ∨ charAt text s₀.pos = sq then
    computeNextScanState (resetForScan s₀) (scanJSON5String (text.drop s₀.pos)) .StringLiteral
  else if (charAt text s₀.pos).val = 0x2F then
    if (charAt text (s₀.pos + 1)).val = 0x2F then
      computeNextScanState (resetForScan s₀) (scanSingleLineComment (text.drop s₀.pos))
        .LineCommentTrivia
    else if (charAt text (s₀.pos + 1)).val = 0x2A then
      computeNextScanState (resetForScan s₀) (scanMultiLineComment (text.drop s₀.pos))
        .BlockCommentTrivia
    else
      some { resetForScan s₀ with
             value := (resetForScan s₀).value ++ [charAt text s₀.pos],
             pos := s₀.pos + 1,
             token := .Unknown }
  else if isNumberStartChar (charAt text s₀.pos) then
    computeNextScanState (resetForScan s₀) (scanJSON5Number (text.drop s₀.pos)) .NumericLiteral
  else if (unknownRun text s₀.pos).length ≠ 0 then
    some { resetForScan s₀ with
           pos := s₀.pos + (unknownRun text s₀.pos).length,
           value := unknownRun text s₀.pos,
           token := unknownWordToken (unknownRun text s₀.pos) }
  else
    some { resetForScan s₀ with
           value := (resetForScan s₀).value ++ [charAt text s₀.pos],
           pos := s₀.pos + 1,
           token := .Unknown }

/-- scanNext with the throw case defaulted away (justified by the
totality theorem below): the state after one scan. -/
def scanNextD (text : List Char) (s : ScanState) : ScanState :=
  (scanNext text s).getD s

/-- scanNextNonTrivia from src/impl/scanner.ts: rescan while the token
kind lies in the trivia range (LineCommentTrivia..Trivia, enum values
16..19).  Fuel bounds the loop; the progress theorem below shows fuel
`text.length + 1` is never exhausted. -/
def scanNextNonTrivia (text : List Char) : Nat → ScanState → Option ScanState
  | 0, _ => none
  | fuel + 1, s =>
    let s' := scanNextD text s
    if 16 ≤ s'.token.val ∧ s'.token.val ≤ 19 then scanNextNonTrivia text fuel s'
    else some s'

/-- getTokenStartCharacter from src/impl/scanner.ts:
`tokenOffset - prevTokenLineStartOffset` (JavaScript subtraction, which
can in principle go negative, hence the integer result type). -/
def getTokenStartCharacter (s : ScanState) : Int :=
  (s.tokenOffset : Int) - (s.prevTokenLineStartOffset : Int)

end scanner

namespace grammar

/-- ScanResult from src/impl/grammar.ts: success flag, consumed length,
line-break counters, and the composed token kind (`ScanSuccess` and
`ScanFailure` share this record shape; the flag distinguishes them). -/
structure GResult where
  success : Bool
  length : Nat
  lineBreaksCount : Nat
  lengthToEndOfLastLineBreak : Nat
  syntaxKind : SyntaxKind
  deriving DecidableEq, Repr

/-- A Scanner in src/impl/grammar.ts. -/
def GScanner := List Char → GResult

/-- isSuccess from src/impl/grammar.ts (the typeof checks are always true). -/
def isSuccess (r : GResult) : Bool := r.success

/-- isFailure from src/impl/grammar.ts. -/
def isFailure (r : GResult) : Bool := !r.success

/-- emptyFailure from src/impl/grammar.ts. -/
def emptyFailure : GResult :=
  { success := false, length := 0, lineBreaksCount := 0,
    lengthToEndOfLastLineBreak := 0, syntaxKind := .Unknown }

/-- emptySuccess from src/impl/grammar.ts. -/
def emptySuccess : GResult :=
  { success := true, length := 0, lineBreaksCount := 0,
    lengthToEndOfLastLineBreak := 0, syntaxKind := .Unknown }

/-- nothing from src/impl/grammar.ts. -/
def nothing : GScanner := fun _ => emptySuccess

/-- concatenate from src/impl/grammar.ts. -/
def concatenate (firstResult secondResult : GResult) : GResult :=
  { success := true,
    length := firstResult.length + secondResult.length,
    lineBreaksCount := firstResult.lineBreaksCount + secondResult.lineBreaksCount,
    lengthToEndOfLastLineBreak :=
      if 0 < secondResult.lineBreaksCount then
        firstResult.length + secondResult.lengthToEndOfLastLineBreak
      else firstResult.lengthToEndOfLastLineBreak,
    syntaxKind :=
      if secondResult.length = 0 then firstResult.syntaxKind
      else if firstResult.length = 0 then secondResult.syntaxKind
      else SyntaxKind.Unknown }

/-- withSyntaxKind from src/impl/grammar.ts. -/
def withSyntaxKind (syntaxKind : SyntaxKind) (scanner : GScanner) : GScanner :=
  fun input => { scanner input with syntaxKind := syntaxKind }

/-- literal from src/impl/grammar.ts. -/
def gliteral (t : List Char) : GScanner := fun input =>
  if t.isPrefixOf input then
    { success := true, length := t.length, lineBreaksCount := 0,
      lengthToEndOfLastLineBreak := 0, syntaxKind := .Unknown }
  else emptyFailure

/-- match from src/impl/grammar.ts, specialised to the single-character
class regexes of the grammar (Unicode category classes and digit
classes): a leading hit is one character satisfying the class
predicate. -/
def gmatchClass (p : Char → Bool) : GScanner := fun input =>
  match input with
  | c :: _ =>
      if p c then
        { success := true, length := 1, lineBreaksCount := 0,
          lengthToEndOfLastLineBreak := 0, syntaxKind := .Unknown }
      else emptyFailure
  | [] => emptyFailure

/-- combineAnd from src/impl/grammar.ts. -/
def combineAnd (first second : GScanner) : GScanner := fun input =>
  let firstResult := first input
  if isFailure firstResult then firstResult
  else
    let secondResult := second (input.drop firstResult.length)
    if isFailure secondResult then
      { secondResult with length := firstResult.length + secondResult.length }
    else concatenate firstResult secondResult

/-- and from src/impl/grammar.ts (`scanners.reduce(combineAnd)`); chains
of more than two scanners left-nest this binary combinator. -/
def gand (f g : GScanner) : GScanner := combineAnd f g

/-- combineOr from src/impl/grammar.ts: the first success wins; between
two failures, the one with the greater length wins, the first on a tie. -/
def combineOr (first second : GScanner) : GScanner := fun input =>
  let firstResult := first input
  if isSuccess firstResult then firstResult
  else
    let secondResult := second input
    if isSuccess secondResult then secondResult
    else if secondResult.length ≤ firstResult.length then firstResult
    else secondResult

/-- or from src/impl/grammar.ts (`scanners.reduce(combineOr)`). -/
def gor (f g : GScanner) : GScanner := combineOr f g

/-- combineLongest from src/impl/grammar.ts: between two successes the
longer wins (the second on a tie); between two failures the longer
consumed length wins (the first on a tie). -/
def combineLongest (first second : GScanner) : GScanner := fun input =>
  let firstResult := first input
  let secondResult := second input
  if isFailure firstResult ∧ isFailure secondResult then
    if secondResult.length ≤ firstResult.length then firstResult else secondResult
  else if isFailure secondResult then firstResult
  else if isFailure firstResult then secondResult
  else if secondResult.length < firstResult.length then firstResult
  else secondResult

/-- longest from src/impl/grammar.ts (`scanners.reduce(combineLongest)`). -/
def glongest (f g : GScanner) : GScanner := combineLongest f g

/-- The recursion of zeroOrMore in src/impl/grammar.ts with explicit
fuel; each recursive call strictly shrinks the input (the guard
requires a non-empty success), so fuel `input.length + 1` is never
exhausted. -/
def gZeroOrMoreGo (s : GScanner) : Nat → List Char → GResult
  | 0, _ => emptySuccess
  | fuel + 1, input =>
    let result := gor s nothing input
    if isFailure result ∨ (isSuccess result ∧ result.length = 0) then emptySuccess
    else concatenate result (gZeroOrMoreGo s fuel (input.drop result.length))

/-- zeroOrMore from src/impl/grammar.ts (the inner
`optional(scanner)(input)` is inlined as `or(scanner, nothing)`). -/
def gZeroOrMore (s : GScanner) : GScanner := fun input =>
  gZeroOrMoreGo s (input.length + 1) input

/-- oneOrMore from src/impl/grammar.ts. -/
def gOneOrMore (s : GScanner) : GScanner := combineAnd s (gZeroOrMore s)

/-- optional from src/impl/grammar.ts. -/
def gOptional (s : GScanner) : GScanner := gor s nothing

/-- butNot from src/impl/grammar.ts. -/
def gButNot (s n : GScanner) : GScanner := fun input =>
  let result := s input
  if isSuccess result then
    if isSuccess (n input) then
      { success := false, length := result.length,
        lineBreaksCount := result.lineBreaksCount,
        lengthToEndOfLastLineBreak := result.lengthToEndOfLastLineBreak,
        syntaxKind := .Unknown }
    else result
  else result

/-- lookaheadNot from src/impl/grammar.ts. -/
def gLookaheadNot (s nf : GScanner) : GScanner := fun input =>
  let result := s input
  if isSuccess result then
    if isSuccess (nf (input.drop result.length)) then
      { success := false, length := result.length,
        lineBreaksCount := result.lineBreaksCount,
        lengthToEndOfLastLineBreak := result.lengthToEndOfLastLineBreak,
        syntaxKind := .Unknown }
    else result
  else result

/-- hexDigit from src/impl/grammar.ts. -/
def hexDigit : GScanner :=
  gmatchClass fun c => ( '0' ≤ c ∧ c ≤ '9') ∨ ( 'a' ≤ c ∧ c ≤ 'f') ∨ ( 'A' ≤ c ∧ c ≤ 'F')

/-- unicodeEscapeSequence from src/impl/grammar.ts. -/
def unicodeEscapeSequence : GScanner :=
  gand (gand (gand (gand (gliteral (str "u")) hexDigit) hexDigit) hexDigit) hexDigit

/-- The Unicode category class `\p{Lu}|\p{Ll}|\p{Lt}|\p{Lm}|\p{Lo}|\p{Nl}`
of unicodeLetter, embedded on the ASCII range (where it is exactly the
Latin letters).  The identifier/keyword theorems below treat the result
of identifierName abstractly and do not depend on the class's extension
beyond ASCII. -/
def isUnicodeLetterChar (c : Char) : Bool :=
  ( 'A' ≤ c ∧ c ≤ 'Z') ∨ ( 'a' ≤ c ∧ c ≤ 'z')

/-- unicodeLetter from src/impl/grammar.ts (class embedded on ASCII). -/
def unicodeLetter : GScanner := gmatchClass isUnicodeLetterChar

/-- The class `\p{Nd}` of unicodeDigit; on the ASCII range it is exactly
the decimal digits. -/
def unicodeDigit : GScanner := gmatchClass fun c => '0' ≤ c ∧ c ≤ '9'

/-- The class `\p{Mn}|\p{Mc}` of unicodeCombiningMark; it has no ASCII
members. -/
def unicodeCombiningMark : GScanner := gmatchClass fun _ => false

/-- The class `\p{Pc}` of unicodeConnectorPunctuation; its only ASCII
member is the low line. -/
def unicodeConnectorPunctuation : GScanner := gmatchClass fun c => c = '_'

/-- identifierStart from src/impl/grammar.ts. -/
def identifierStart : GScanner :=
  gor (gor (gor unicodeLetter (gliteral (str "$"))) (gliteral (str "_")))
      (gand (gliteral [bsl]) unicodeEscapeSequence)

/-- identifierPart from src/impl/grammar.ts. -/
def identifierPart : GScanner :=
  gor (gor (gor (gor (gor identifierStart unicodeCombiningMark) unicodeDigit)
                unicodeConnectorPunctuation)
           (gliteral (str "\u200C")))
      (gliteral (str "\u200D"))

/-- identifierName from src/impl/grammar.ts. -/
def identifierName : GScanner :=
  gor (gand identifierStart (gOneOrMore identifierPart)) identifierStart

/-- nullLiteral from src/impl/grammar.ts. -/
def nullLiteral : GScanner := withSyntaxKind .NullKeyword (gliteral (str "null"))

/-- trueLiteral from src/impl/grammar.ts. -/
def trueLiteral : GScanner := withSyntaxKind .TrueKeyword (gliteral (str "true"))

/-- falseLiteral from src/impl/grammar.ts. -/
def falseLiteral : GScanner := withSyntaxKind .FalseKeyword (gliteral (str "false"))

/-- infinityLiteral from src/impl/grammar.ts. -/
def infinityLiteral : GScanner := withSyntaxKind .InfinityKeyword (gliteral (str "Infinity"))

/-- nanLiteral from src/impl/grammar.ts. -/
def nanLiteral : GScanner := withSyntaxKind .NaNKeyword (gliteral (str "NaN"))

/-- json5Identifier from src/impl/grammar.ts:
`longest(Identifier-tagged identifierName, null, true, false, Infinity, NaN)`. -/
def json5Identifier : GScanner :=
  glongest
    (glongest
      (glongest
        (glongest (glongest (withSyntaxKind .Identifier identifierName) nullLiteral)
          trueLiteral)
        falseLiteral)
      infinityLiteral)
    nanLiteral

/-- The keyword lexemes recognised by json5Identifier, with the token
kinds their literal scanners stamp. -/
def json5IdentifierKeywords : List (List Char × SyntaxKind) :=
  [(str "null", .NullKeyword), (str "true", .TrueKeyword), (str "false", .FalseKeyword),
   (str "Infinity", .InfinityKeyword), (str "NaN", .NaNKeyword)]

end grammar

/-! ## Combinator lemmas for the scanner.ts embedding -/

namespace scanner

theorem jsStrGE_cons_nil (a : Char) (as : List Char) : jsStrGE (a :: as) [] = true := rfl

theorem jsStrGE_nil_cons (b : Char) (bs : List Char) : jsStrGE [] (b :: bs) = false := rfl

theorem combineOr_cases (r₁ r₂ : SResult) :
    combineOr r₁ r₂ = r₁ ∨ combineOr r₁ r₂ = r₂ := by
  cases r₁ with
  | success l₁ =>
    cases r₂ with
    | success l₂ =>
        simp only [combineOr]
        split
        · exact Or.inl rfl
        · exact Or.inr rfl
    | failure c₂ => exact Or.inl rfl
  | failure c₁ =>
    cases r₂ with
    | success l₂ => exact Or.inr rfl
    | failure c₂ =>
        simp only [combineOr]
        split
        · exact Or.inl rfl
        · exact Or.inr rfl

theorem resLen_combineAnd_le (r₁ r₂ : SResult) :
    resLen (combineAnd r₁ r₂) ≤ resLen r₁ + resLen r₂ := by
  cases r₁ <;> cases r₂ <;> simp [combineAnd, resLen, covered]

theorem resLen_combineAnd_left_le (r₁ r₂ : SResult) :
    resLen r₁ ≤ resLen (combineAnd r₁ r₂) ∨ combineAnd r₁ r₂ = r₁ := by
  cases r₁ <;> cases r₂ <;> simp [combineAnd, resLen, covered]

/-- Boundedness: a scanner never accounts for more input than it was given. -/
def Bounded (f : SScanner) : Prop := ∀ input, resLen (f input) ≤ input.length

theorem bounded_literal (t : List Char) : Bounded (literal t) := by
  intro input
  unfold literal
  split
  · next h =>
      simpa [resLen, covered] using
        (List.IsPrefix.length_le (List.isPrefixOf_iff_prefix.mp h))
  · simp [resLen, covered]

theorem bounded_matchClass (p : Char → Bool) : Bounded (matchClass p) := by
  intro input
  cases input with
  | nil => simp [matchClass, resLen, covered]
  | cons c rest =>
      simp only [matchClass]
      split <;> simp [resLen, covered]

theorem bounded_scanNothing : Bounded scanNothing := by
  intro input; simp [scanNothing, resLen, covered]

theorem bounded_scanEmpty : Bounded scanEmpty := by
  intro input; unfold scanEmpty; split <;> simp [resLen, covered]

theorem bounded_scanSourceCharacter : Bounded scanSourceCharacter := by
  intro input
  cases input <;> simp [scanSourceCharacter, resLen, covered]

theorem bounded_and2 {f g : SScanner} (hf : Bounded f) (hg : Bounded g) :
    Bounded (and2 f g) := by
  intro input
  simp only [and2]
  cases hfi : f input with
  | failure c =>
      have := hf input
      rw [hfi] at this
      simpa [resLen, covered] using this
  | success l =>
      dsimp only
      have h1 : l.length ≤ input.length := by
        have := hf input; rw [hfi] at this; simpa [resLen, covered] using this
      have h2 := hg (input.drop l.length)
      rw [List.length_drop] at h2
      cases hgi : g (input.drop l.length) with
      | failure c₂ =>
          rw [hgi] at h2
          simp only [combineAnd, resLen, covered, List.length_append] at h2 ⊢
          omega
      | success l₂ =>
          rw [hgi] at h2
          simp only [combineAnd, resLen, covered, List.length_append] at h2 ⊢
          omega

theorem bounded_or2 {f g : SScanner} (hf : Bounded f) (hg : Bounded g) :
    Bounded (or2 f g) := by
  intro input
  unfold or2
  rcases combineOr_cases (f input) (g input) with h | h <;> rw [h]
  · exact hf input
  · exact hg input

theorem bounded_optional {f : SScanner} (hf : Bounded f) : Bounded (optional f) :=
  bounded_or2 hf bounded_scanNothing

theorem bounded_zeroOrMoreGo {s : SScanner} (hs : Bounded s) :
    ∀ (fuel : Nat) (input l : List Char), l.length ≤ input.length →
      resLen (zeroOrMoreGo s input fuel (.success l)) ≤ input.length := by
  intro fuel
  induction fuel with
  | zero => intro input l h; simpa [zeroOrMoreGo, resLen, covered] using h
  | succ n ih =>
    intro input l h
    simp only [zeroOrMoreGo, covered]
    cases hsi : s (input.drop l.length) with
    | failure c => simpa [resLen, covered] using h
    | success l₂ =>
        dsimp only
        have h2 := hs (input.drop l.length)
        rw [hsi, List.length_drop] at h2
        simp only [resLen, covered] at h2
        simp only [combineAnd]
        split
        · exact ih input (l ++ l₂) (by simp; omega)
        · simp [resLen, covered]; omega

theorem bounded_zeroOrMore {s : SScanner} (hs : Bounded s) : Bounded (zeroOrMore s) := by
  intro input
  simp only [zeroOrMore]
  cases hsi : s input with
  | failure c => simp [scanNothing, resLen, covered]
  | success l =>
      have h1 : l.length ≤ input.length := by
        have := hs input; rw [hsi] at this; simpa [resLen, covered] using this
      exact bounded_zeroOrMoreGo hs _ input l h1

theorem bounded_oneOrMore {s : SScanner} (hs : Bounded s) : Bounded (oneOrMore s) := by
  intro input
  simp only [oneOrMore]
  cases hsi : s input with
  | failure c =>
      have := hs input; rw [hsi] at this; simpa [resLen, covered] using this
  | success l =>
      dsimp only
      have h1 : l.length ≤ input.length := by
        have := hs input; rw [hsi] at this; simpa [resLen, covered] using this
      have h2 := bounded_zeroOrMore hs (input.drop l.length)
      rw [List.length_drop] at h2
      cases hz : zeroOrMore s (input.drop l.length) with
      | failure c₂ =>
          rw [hz] at h2
          simp only [combineAnd, resLen, covered, List.length_append] at h2 ⊢
          omega
      | success l₂ =>
          rw [hz] at h2
          simp only [combineAnd, resLen, covered, List.length_append] at h2 ⊢
          omega

theorem bounded_butNot {s n : SScanner} (hs : Bounded s) : Bounded (butNot s n) := by
  intro input
  cases hsi : s input with
  | failure c =>
      have := hs input; rw [hsi] at this
      simpa [butNot, hsi, resLen, covered] using this
  | success l =>
      have h1 : l.length ≤ input.length := by
        have := hs input; rw [hsi] at this; simpa [resLen, covered] using this
      simp only [butNot, hsi]
      split <;> simpa [resLen, covered] using h1

theorem bounded_lookaheadNot {s n : SScanner} (hs : Bounded s) :
    Bounded (lookaheadNot s n) := by
  intro input
  cases hsi : s input with
  | failure c =>
      have := hs input; rw [hsi] at this
      simpa [lookaheadNot, hsi, resLen, covered] using this
  | success l =>
      have h1 : l.length ≤ input.length := by
        have := hs input; rw [hsi] at this; simpa [resLen, covered] using this
      simp only [lookaheadNot, hsi]
      split <;> simpa [resLen, covered] using h1

theorem bounded_scanHexDigit : Bounded scanHexDigit := bounded_matchClass _

theorem bounded_scanDecimalDigit : Bounded scanDecimalDigit := bounded_matchClass _

theorem bounded_scanNonZeroDigit : Bounded scanNonZeroDigit := bounded_matchClass _

theorem bounded_scanExponentIndicator : Bounded scanExponentIndicator :=
  bounded_or2 (bounded_literal _) (bounded_literal _)

theorem bounded_scanHexIntegerLiteral : Bounded scanHexIntegerLiteral :=
  bounded_or2 (bounded_and2 (bounded_literal _) (bounded_oneOrMore bounded_scanHexDigit))
    (bounded_and2 (bounded_literal _) (bounded_oneOrMore bounded_scanHexDigit))

theorem bounded_scanDecimalDigits : Bounded scanDecimalDigits :=
  bounded_oneOrMore bounded_scanDecimalDigit

theorem bounded_scanSignedInteger : Bounded scanSignedInteger :=
  bounded_or2
    (bounded_or2 bounded_scanDecimalDigits
      (bounded_and2 (bounded_literal _) bounded_scanDecimalDigits))
    (bounded_and2 (bounded_literal _) bounded_scanDecimalDigits)

theorem bounded_scanExponentPart : Bounded scanExponentPart :=
  bounded_and2 bounded_scanExponentIndicator bounded_scanSignedInteger

theorem bounded_scanDecimalIntegerLiteral : Bounded scanDecimalIntegerLiteral :=
  bounded_or2 (bounded_literal _)
    (bounded_and2 bounded_scanNonZeroDigit (bounded_optional bounded_scanDecimalDigits))

theorem bounded_scanDecimalLiteral : Bounded scanDecimalLiteral :=
  bounded_or2
    (bounded_or2
      (bounded_and2
        (bounded_and2 (bounded_and2 bounded_scanDecimalIntegerLiteral (bounded_literal _))
          (bounded_optional bounded_scanDecimalDigits))
        (bounded_optional bounded_scanExponentPart))
      (bounded_and2 (bounded_and2 (bounded_literal _) bounded_scanDecimalDigits)
        (bounded_optional bounded_scanExponentPart)))
    (bounded_and2 bounded_scanDecimalIntegerLiteral (bounded_optional bounded_scanExponentPart))

theorem bounded_scanNumericLiteral : Bounded scanNumericLiteral :=
  bounded_or2 bounded_scanDecimalLiteral bounded_scanHexIntegerLiteral

theorem bounded_scanJSON5NumericLiteral : Bounded scanJSON5NumericLiteral :=
  bounded_or2 (bounded_or2 bounded_scanNumericLiteral (bounded_literal _)) (bounded_literal _)

theorem bounded_scanJSON5Number : Bounded scanJSON5Number :=
  bounded_or2
    (bounded_or2 bounded_scanJSON5NumericLiteral
      (bounded_and2 (bounded_literal _) bounded_scanJSON5NumericLiteral))
    (bounded_and2 (bounded_literal _) bounded_scanJSON5NumericLiteral)

theorem bounded_scanLineTerminator : Bounded scanLineTerminator :=
  bounded_or2 (bounded_or2 (bounded_or2 (bounded_literal _) (bounded_literal _))
    (bounded_literal _)) (bounded_literal _)

theorem bounded_scanLineTerminatorSequence : Bounded scanLineTerminatorSequence :=
  bounded_or2
    (bounded_or2 (bounded_or2 (bounded_literal _)
      (bounded_lookaheadNot (bounded_literal _))) (bounded_literal _))
    (bounded_literal _)

theorem bounded_scanLineContinuation : Bounded scanLineContinuation :=
  bounded_and2 (bounded_literal _) bounded_scanLineTerminatorSequence

theorem bounded_scanHexEscapeSequence : Bounded scanHexEscapeSequence :=
  bounded_and2 (bounded_and2 (bounded_literal _) bounded_scanHexDigit) bounded_scanHexDigit

theorem bounded_scanUnicodeEscapeSequence : Bounded scanUnicodeEscapeSequence :=
  bounded_and2
    (bounded_and2
      (bounded_and2 (bounded_and2 (bounded_literal _) bounded_scanHexDigit)
        bounded_scanHexDigit)
      bounded_scanHexDigit)
    bounded_scanHexDigit

theorem bounded_scanSingleEscapeCharacter : Bounded scanSingleEscapeCharacter :=
  bounded_or2 (bounded_or2 (bounded_or2 (bounded_or2 (bounded_or2 (bounded_or2
    (bounded_or2 (bounded_or2 (bounded_literal _) (bounded_literal _)) (bounded_literal _))
    (bounded_literal _)) (bounded_literal _)) (bounded_literal _)) (bounded_literal _))
    (bounded_literal _)) (bounded_literal _)

theorem bounded_scanEscapeCharacter : Bounded scanEscapeCharacter :=
  bounded_or2 (bounded_or2 (bounded_or2 bounded_scanSingleEscapeCharacter
    bounded_scanDecimalDigit) (bounded_literal _)) (bounded_literal _)

theorem bounded_scanNonEscapeCharacter : Bounded scanNonEscapeCharacter := by
  intro input
  cases input with
  | nil => simp [scanNonEscapeCharacter, scanSourceCharacter, resLen, covered]
  | cons c rest =>
      simp only [scanNonEscapeCharacter, scanSourceCharacter]
      split <;> (try split) <;> simp [resLen, covered]

theorem bounded_scanCharacterEscapeSequence : Bounded scanCharacterEscapeSequence :=
  bounded_or2 bounded_scanSingleEscapeCharacter bounded_scanNonEscapeCharacter

theorem bounded_scanEscapeSequence : Bounded scanEscapeSequence :=
  bounded_or2 (bounded_or2 (bounded_or2 bounded_scanCharacterEscapeSequence
    (bounded_lookaheadNot (bounded_literal _))) bounded_scanHexEscapeSequence)
    bounded_scanUnicodeEscapeSequence

theorem bounded_scanJSON5SingleStringCharacter : Bounded scanJSON5SingleStringCharacter :=
  bounded_or2 (bounded_or2 (bounded_or2 (bounded_or2
    (bounded_butNot bounded_scanSourceCharacter)
    (bounded_and2 (bounded_literal _) bounded_scanEscapeSequence))
    bounded_scanLineContinuation) (bounded_literal _)) (bounded_literal _)

theorem bounded_scanJSON5DoubleStringCharacter : Bounded scanJSON5DoubleStringCharacter :=
  bounded_or2 (bounded_or2 (bounded_or2 (bounded_or2
    (bounded_butNot bounded_scanSourceCharacter)
    (bounded_and2 (bounded_literal _) bounded_scanEscapeSequence))
    bounded_scanLineContinuation) (bounded_literal _)) (bounded_literal _)

theorem bounded_scanJSON5SingleStringCharacters : Bounded scanJSON5SingleStringCharacters :=
  bounded_oneOrMore bounded_scanJSON5SingleStringCharacter

theorem bounded_scanJSON5DoubleStringCharacters : Bounded scanJSON5DoubleStringCharacters :=
  bounded_oneOrMore bounded_scanJSON5DoubleStringCharacter

theorem bounded_scanJSON5String : Bounded scanJSON5String :=
  bounded_or2
    (bounded_and2 (bounded_and2 (bounded_literal _)
      (bounded_zeroOrMore bounded_scanJSON5DoubleStringCharacters)) (bounded_literal _))
    (bounded_and2 (bounded_and2 (bounded_literal _)
      (bounded_zeroOrMore bounded_scanJSON5SingleStringCharacters)) (bounded_literal _))

theorem bounded_scanSingleLineCommentChar : Bounded scanSingleLineCommentChar :=
  bounded_butNot bounded_scanSourceCharacter

theorem bounded_scanSingleLineCommentCharsGo :
    ∀ fuel, Bounded (scanSingleLineCommentCharsGo fuel) := by
  intro fuel
  induction fuel with
  | zero => intro input; simp [scanSingleLineCommentCharsGo, resLen, covered]
  | succ n ih =>
      exact bounded_and2 bounded_scanSingleLineCommentChar (bounded_optional ih)

theorem bounded_scanSingleLineCommentChars : Bounded scanSingleLineCommentChars := by
  intro input
  exact bounded_scanSingleLineCommentCharsGo (input.length + 1) input

theorem bounded_scanSingleLineComment : Bounded scanSingleLineComment :=
  bounded_and2 (bounded_literal _) (bounded_optional bounded_scanSingleLineCommentChars)

theorem bounded_scanMultiLineNotAsteriskChar : Bounded scanMultiLineNotAsteriskChar :=
  bounded_butNot bounded_scanSourceCharacter

theorem bounded_scanMultiLineCommentChars : Bounded scanMultiLineCommentChars :=
  bounded_oneOrMore (bounded_or2 bounded_scanMultiLineNotAsteriskChar
    (bounded_lookaheadNot (bounded_literal _)))

theorem bounded_scanMultiLineComment : Bounded scanMultiLineComment :=
  bounded_and2 (bounded_and2 (bounded_literal _)
    (bounded_optional bounded_scanMultiLineCommentChars)) (bounded_literal _)

/-! ## Success- and failure-shape lemmas -/

theorem or2_eq_cases (f g : SScanner) (input : List Char) :
    or2 f g input = f input ∨ or2 f g input = g input :=
  combineOr_cases (f input) (g input)

theorem literal_success {t input l : List Char} (h : literal t input = .success l) :
    l = t ∧ t.isPrefixOf input = true := by
  unfold literal at h
  split at h
  · next hp => exact ⟨by injection h with h'; exact h'.symm, hp⟩
  · exact absurd h (by simp)

theorem lookaheadNot_success {s nf : SScanner} {input l : List Char}
    (h : lookaheadNot s nf input = .success l) : s input = .success l := by
  unfold lookaheadNot at h
  cases hsi : s input with
  | failure c => rw [hsi] at h; exact absurd h (by simp)
  | success l' =>
      rw [hsi] at h
      dsimp only at h
      split at h
      · exact absurd h (by simp)
      · injection h with h'; rw [h']

theorem scanLineTerminatorSequence_success_pos {input lex : List Char}
    (h : scanLineTerminatorSequence input = .success lex) : 1 ≤ lex.length := by
  unfold scanLineTerminatorSequence at h
  rcases or2_eq_cases _ _ input with h1 | h1 <;> rw [h1] at h
  case inr =>
      obtain ⟨hl, _⟩ := literal_success h
      simp [hl, str]
  case inl =>
      rcases or2_eq_cases _ _ input with h2 | h2 <;> rw [h2] at h
      case inr =>
          obtain ⟨hl, _⟩ := literal_success h
          simp [hl, str]
      case inl =>
          rcases or2_eq_cases _ _ input with h3 | h3 <;> rw [h3] at h
          case inr =>
              have := lookaheadNot_success h
              obtain ⟨hl, _⟩ := literal_success this
              simp [hl, str]
          case inl =>
              obtain ⟨hl, _⟩ := literal_success h
              simp [hl, str]

/-! ## Progress lemmas: the productions invoked by scanNext always
account for at least one character of the input they are given. -/

theorem and2_first_fail {f : SScanner} (g : SScanner) {input c : List Char}
    (h : f input = .failure c) : and2 f g input = .failure c := by
  simp [and2, h]

theorem and2_resLen_pos {f g : SScanner} {input : List Char}
    (h : 1 ≤ resLen (f input)) : 1 ≤ resLen (and2 f g input) := by
  simp only [and2]
  cases hfi : f input with
  | failure c => rw [hfi] at h; simpa [resLen, covered] using h
  | success l =>
      rw [hfi] at h
      simp only [resLen, covered] at h
      dsimp only
      cases g (input.drop l.length) <;>
        simp only [combineAnd, resLen, covered, List.length_append] <;> omega

theorem or2_pos_right_failnil {f g : SScanner} {input : List Char}
    (hg : g input = .failure []) (hf : 1 ≤ resLen (f input)) :
    1 ≤ resLen (or2 f g input) := by
  simp only [or2, hg]
  cases hfi : f input with
  | failure c =>
      rw [hfi] at hf
      simp only [resLen, covered] at hf
      obtain ⟨x, xs, hx⟩ : ∃ x xs, c = x :: xs := by
        cases c with
        | nil => simp at hf
        | cons x xs => exact ⟨x, xs, rfl⟩
      subst hx
      simp [combineOr, jsStrGE_cons_nil, resLen, covered]
  | success l =>
      rw [hfi] at hf
      simpa [combineOr, resLen, covered] using hf

theorem or2_pos_left_failnil {f g : SScanner} {input : List Char}
    (hf : f input = .failure []) (hg : 1 ≤ resLen (g input)) :
    1 ≤ resLen (or2 f g input) := by
  simp only [or2, hf]
  cases hgi : g input with
  | failure c =>
      rw [hgi] at hg
      simp only [resLen, covered] at hg
      obtain ⟨x, xs, hx⟩ : ∃ x xs, c = x :: xs := by
        cases c with
        | nil => simp at hg
        | cons x xs => exact ⟨x, xs, rfl⟩
      subst hx
      simp [combineOr, jsStrGE_nil_cons, resLen, covered]
  | success l =>
      rw [hgi] at hg
      simpa [combineOr, resLen, covered] using hg

theorem or2_pos_left_success {f g : SScanner} {input l : List Char}
    (hf : f input = .success l) (hl : 1 ≤ l.length) :
    1 ≤ resLen (or2 f g input) ∧ isSuccess (or2 f g input) = true := by
  simp only [or2, hf]
  cases hgi : g input with
  | failure c => simpa [combineOr, resLen, covered, isSuccess] using hl
  | success l₂ =>
      simp only [combineOr]
      split
      · simpa [resLen, covered, isSuccess] using hl
      · next h =>
          refine ⟨?_, by simp [isSuccess]⟩
          simp only [resLen, covered]
          omega

theorem or2_pos_both {f g : SScanner} {input : List Char}
    (hf : 1 ≤ resLen (f input)) (hg : 1 ≤ resLen (g input)) :
    1 ≤ resLen (or2 f g input) := by
  rcases or2_eq_cases f g input with h | h <;> rw [h] <;> assumption

theorem matchClass_pos {p : Char → Bool} {c : Char} (rest : List Char)
    (h : p c = true) : matchClass p (c :: rest) = .success [c] := by
  simp [matchClass, h]

theorem matchClass_neg {p : Char → Bool} {c : Char} (rest : List Char)
    (h : p c = false) : matchClass p (c :: rest) = .failure [] := by
  simp [matchClass, h]

theorem literal_success_of_isPrefixOf {t input : List Char}
    (h : t.isPrefixOf input = true) : literal t input = .success t := by
  simp [literal, h]

theorem literal_cons_ne {d c : Char} (h : d ≠ c) (ds rest : List Char) :
    literal (d :: ds) (c :: rest) = .failure [] := by
  have : (d :: ds).isPrefixOf (c :: rest) = false := by
    simp [List.isPrefixOf]
    intro he
    exact absurd he h
  simp [literal, this]

theorem char_ne_of_val_ne {a b : Char} (h : a.val ≠ b.val) : a ≠ b :=
  fun he => h (he ▸ rfl)

theorem scanJSON5Number_pos_plus (rest : List Char) :
    1 ≤ resLen (scanJSON5Number (('+' : Char) :: rest)) := by
  unfold scanJSON5Number
  apply or2_pos_right_failnil
  · exact and2_first_fail _ (literal_cons_ne (by decide) _ _)
  · apply or2_pos_left_failnil
    · rfl
    · apply and2_resLen_pos
      show 1 ≤ resLen (literal (str "+") (('+' : Char) :: rest))
      rw [literal_success_of_isPrefixOf (by simp [str, List.isPrefixOf])]
      simp [resLen, covered, str]

theorem scanJSON5Number_pos_minus (rest : List Char) :
    1 ≤ resLen (scanJSON5Number (('-' : Char) :: rest)) := by
  unfold scanJSON5Number
  apply or2_pos_left_failnil
  · rfl
  · apply and2_resLen_pos
    show 1 ≤ resLen (literal (str "-") (('-' : Char) :: rest))
    rw [literal_success_of_isPrefixOf (by simp [str, List.isPrefixOf])]
    simp [resLen, covered, str]

theorem scanJSON5Number_pos_dot (rest : List Char) :
    1 ≤ resLen (scanJSON5Number (('.' : Char) :: rest)) := by
  have hdl : 1 ≤ resLen (scanDecimalLiteral (('.' : Char) :: rest)) := by
    unfold scanDecimalLiteral
    apply or2_pos_right_failnil
    · exact and2_first_fail _ rfl
    · apply or2_pos_left_failnil
      · rfl
      · apply and2_resLen_pos
        apply and2_resLen_pos
        show 1 ≤ resLen (literal (str ".") (('.' : Char) :: rest))
        rw [literal_success_of_isPrefixOf (by simp [str, List.isPrefixOf])]
        simp [resLen, covered, str]
  have hnl : 1 ≤ resLen (scanNumericLiteral (('.' : Char) :: rest)) := by
    unfold scanNumericLiteral
    exact or2_pos_right_failnil rfl hdl
  have hj : 1 ≤ resLen (scanJSON5NumericLiteral (('.' : Char) :: rest)) := by
    unfold scanJSON5NumericLiteral
    exact or2_pos_right_failnil rfl (or2_pos_right_failnil rfl hnl)
  unfold scanJSON5Number
  apply or2_pos_right_failnil
  · exact and2_first_fail _ (literal_cons_ne (by decide) _ _)
  · exact or2_pos_right_failnil (and2_first_fail _ (literal_cons_ne (by decide) _ _)) hj

theorem isSuccess_iff {r : SResult} : isSuccess r = true ↔ ∃ l, r = .success l := by
  cases r <;> simp [isSuccess]

theorem optional_isSuccess (s : SScanner) (input : List Char) :
    isSuccess (optional s input) = true := by
  simp only [optional, or2]
  cases hsi : s input with
  | failure c => simp [combineOr, scanNothing, isSuccess]
  | success l =>
      simp only [scanNothing, combineOr]
      split <;> simp [isSuccess]

theorem optional_success (s : SScanner) (input : List Char) :
    ∃ l, optional s input = .success l :=
  isSuccess_iff.mp (optional_isSuccess s input)

theorem and2_success_of_success {f g : SScanner} {input l l₂ : List Char}
    (hf : f input = .success l) (hg : g (input.drop l.length) = .success l₂) :
    and2 f g input = .success (l ++ l₂) := by
  simp [and2, hf, hg, combineAnd]

theorem or2_pos_right_success {f g : SScanner} {input l : List Char}
    (hg : g input = .success l) (hl : 1 ≤ l.length) :
    1 ≤ resLen (or2 f g input) ∧ isSuccess (or2 f g input) = true := by
  simp only [or2, hg]
  cases hfi : f input with
  | failure c => simpa [combineOr, resLen, covered, isSuccess] using hl
  | success l₁ =>
      simp only [combineOr]
      split
      · next h =>
          refine ⟨?_, by simp [isSuccess]⟩
          simp only [resLen, covered]
          omega
      · simpa [resLen, covered, isSuccess] using hl

/-- Nat forms of a digit-range hypothesis on a character. -/
theorem char_digit_toNat {c : Char} (hc : ('0' ≤ c ∧ c ≤ '9')) :
    48 ≤ c.val.toNat ∧ c.val.toNat ≤ 57 :=
  ⟨hc.1, hc.2⟩

theorem char_ne_of_toNat_ne {a b : Char} (h : a.val.toNat ≠ b.val.toNat) : a ≠ b :=
  fun he => h (he ▸ rfl)

theorem scanDecimalIntegerLiteral_digit {c : Char} (rest : List Char)
    (hc : '0' ≤ c ∧ c ≤ '9') :
    ∃ l, scanDecimalIntegerLiteral (c :: rest) = .success l ∧ 1 ≤ l.length := by
  by_cases h0 : c = '0'
  · subst h0
    have h1 : literal (str "0") (('0' : Char) :: rest) = .success (str "0") :=
      literal_success_of_isPrefixOf (by simp [str, List.isPrefixOf])
    have h2 : scanNonZeroDigit (('0' : Char) :: rest) = .failure [] :=
      matchClass_neg _ (by decide)
    have h3 := and2_first_fail (optional scanDecimalDigits) h2
    refine ⟨str "0", ?_, by simp [str]⟩
    simp only [scanDecimalIntegerLiteral, or2, h1, h3, combineOr]
  · have hv := char_digit_toNat hc
    have hnz : scanNonZeroDigit (c :: rest) = .success [c] := by
      apply matchClass_pos
      simp only [decide_eq_true_eq]
      constructor
      · show (49 : Nat) ≤ c.val.toNat
        have hne : c.val.toNat ≠ 48 := by
          intro he
          exact h0 (Char.ext (UInt32.toNat.inj (by simpa using he)))
        omega
      · exact hc.2
    have hz : literal (str "0") (c :: rest) = .failure [] := by
      refine literal_cons_ne (char_ne_of_toNat_ne ?_) _ _
      show (48 : Nat) ≠ c.val.toNat
      intro he
      exact h0 (Char.ext (UInt32.toNat.inj (by simpa using he.symm)))
    obtain ⟨lo, hlo⟩ := optional_success scanDecimalDigits ((c :: rest).drop [c].length)
    have hand := and2_success_of_success hnz hlo
    refine ⟨[c] ++ lo, ?_, by simp⟩
    simp only [scanDecimalIntegerLiteral, or2, hz, hand, combineOr]

theorem scanJSON5Number_pos_digit {c : Char} (rest : List Char)
    (hc : '0' ≤ c ∧ c ≤ '9') :
    1 ≤ resLen (scanJSON5Number (c :: rest)) := by
  have hv := char_digit_toNat hc
  have hne : ∀ d : Char, d.val.toNat < 48 ∨ 57 < d.val.toNat → d ≠ c := by
    intro d hd
    refine char_ne_of_toNat_ne ?_
    omega
  obtain ⟨ld, hld, hld1⟩ := scanDecimalIntegerLiteral_digit rest hc
  -- the third DecimalLiteral alternative always succeeds on a digit
  obtain ⟨lo, hlo⟩ := optional_success scanExponentPart ((c :: rest).drop ld.length)
  have halt3 := and2_success_of_success hld hlo
  have hdl : 1 ≤ resLen (scanDecimalLiteral (c :: rest)) ∧
      isSuccess (scanDecimalLiteral (c :: rest)) = true := by
    unfold scanDecimalLiteral
    refine or2_pos_right_success halt3 ?_
    simp only [List.length_append]
    omega
  obtain ⟨ldl, hldl⟩ := isSuccess_iff.mp hdl.2
  have hldl1 : 1 ≤ ldl.length := by
    have := hdl.1
    rw [hldl] at this
    simpa [resLen, covered] using this
  have hnl : 1 ≤ resLen (scanNumericLiteral (c :: rest)) ∧
      isSuccess (scanNumericLiteral (c :: rest)) = true := by
    unfold scanNumericLiteral
    exact or2_pos_left_success hldl hldl1
  obtain ⟨lnl, hlnl⟩ := isSuccess_iff.mp hnl.2
  have hlnl1 : 1 ≤ lnl.length := by
    have := hnl.1
    rw [hlnl] at this
    simpa [resLen, covered] using this
  have hInf : literal (str "Infinity") (c :: rest) = .failure [] :=
    literal_cons_ne (hne 'I' (by right; decide)) _ _
  have hNaN : literal (str "NaN") (c :: rest) = .failure [] :=
    literal_cons_ne (hne 'N' (by right; decide)) _ _
  have hj : 1 ≤ resLen (scanJSON5NumericLiteral (c :: rest)) ∧
      isSuccess (scanJSON5NumericLiteral (c :: rest)) = true := by
    unfold scanJSON5NumericLiteral
    obtain ⟨li, hli⟩ := isSuccess_iff.mp (or2_pos_left_success hlnl hlnl1 (g := literal (str "Infinity"))).2
    have hli1 : 1 ≤ li.length := by
      have := (or2_pos_left_success hlnl hlnl1 (g := literal (str "Infinity"))).1
      rw [hli] at this
      simpa [resLen, covered] using this
    exact or2_pos_left_success hli hli1
  obtain ⟨lj, hlj⟩ := isSuccess_iff.mp hj.2
  have hlj1 : 1 ≤ lj.length := by
    have := hj.1
    rw [hlj] at this
    simpa [resLen, covered] using this
  have hplus : and2 (literal (str "+")) scanJSON5NumericLiteral (c :: rest) = .failure [] :=
    and2_first_fail _ (literal_cons_ne (hne '+' (by left; decide)) _ _)
  have hminus : and2 (literal (str "-")) scanJSON5NumericLiteral (c :: rest) = .failure [] :=
    and2_first_fail _ (literal_cons_ne (hne '-' (by left; decide)) _ _)
  unfold scanJSON5Number
  obtain ⟨lk, hlk⟩ := isSuccess_iff.mp
    (or2_pos_left_success hlj hlj1 (g := and2 (literal (str "+")) scanJSON5NumericLiteral)).2
  have hlk1 : 1 ≤ lk.length := by
    have := (or2_pos_left_success hlj hlj1 (g := and2 (literal (str "+")) scanJSON5NumericLiteral)).1
    rw [hlk] at this
    simpa [resLen, covered] using this
  exact (or2_pos_left_success hlk hlk1).1

theorem scanJSON5String_pos_dq (rest : List Char) :
    1 ≤ resLen (scanJSON5String (dq :: rest)) := by
  unfold scanJSON5String
  apply or2_pos_right_failnil
  · exact and2_first_fail _ (and2_first_fail _ (literal_cons_ne (by decide) _ _))
  · apply and2_resLen_pos
    apply and2_resLen_pos
    rw [literal_success_of_isPrefixOf (by simp [List.isPrefixOf])]
    simp [resLen, covered]

theorem scanJSON5String_pos_sq (rest : List Char) :
    1 ≤ resLen (scanJSON5String (sq :: rest)) := by
  unfold scanJSON5String
  apply or2_pos_left_failnil
  · exact and2_first_fail _ (and2_first_fail _ (literal_cons_ne (by decide) _ _))
  · apply and2_resLen_pos
    apply and2_resLen_pos
    rw [literal_success_of_isPrefixOf (by simp [List.isPrefixOf])]
    simp [resLen, covered]

theorem scanSingleLineComment_pos (rest : List Char) :
    1 ≤ resLen (scanSingleLineComment (('/' : Char) :: ('/' : Char) :: rest)) := by
  unfold scanSingleLineComment
  apply and2_resLen_pos
  rw [literal_success_of_isPrefixOf (by simp [str, List.isPrefixOf])]
  simp [resLen, covered, str]

theorem scanMultiLineComment_pos (rest : List Char) :
    1 ≤ resLen (scanMultiLineComment (('/' : Char) :: ('*' : Char) :: rest)) := by
  unfold scanMultiLineComment
  apply and2_resLen_pos
  apply and2_resLen_pos
  rw [literal_success_of_isPrefixOf (by simp [str, List.isPrefixOf])]
  simp [resLen, covered, str]

/-! ## State-level lemmas about computeNextScanState and scanNext -/

@[simp] theorem resetForScan_pos (s₀ : ScanState) : (resetForScan s₀).pos = s₀.pos := rfl

@[simp] theorem resetForScan_value (s₀ : ScanState) : (resetForScan s₀).value = [] := rfl

@[simp] theorem resetForScan_scanError (s₀ : ScanState) :
    (resetForScan s₀).scanError = .None := rfl

@[simp] theorem resetForScan_tokenOffset (s₀ : ScanState) :
    (resetForScan s₀).tokenOffset = s₀.pos := rfl

@[simp] theorem resetForScan_token (s₀ : ScanState) :
    (resetForScan s₀).token = s₀.token := rfl

@[simp] theorem resetForScan_lineNumber (s₀ : ScanState) :
    (resetForScan s₀).lineNumber = s₀.lineNumber := rfl

@[simp] theorem resetForScan_lineStartOffset (s₀ : ScanState) :
    (resetForScan s₀).lineStartOffset = s₀.lineNumber := rfl

@[simp] theorem resetForScan_tokenLineStartOffset (s₀ : ScanState) :
    (resetForScan s₀).tokenLineStartOffset = s₀.tokenLineStartOffset := rfl

@[simp] theorem resetForScan_prevTokenLineStartOffset (s₀ : ScanState) :
    (resetForScan s₀).prevTokenLineStartOffset = s₀.tokenLineStartOffset := rfl

/-- The pair computed by the line-tracking loop for a consumed string. -/
def countLinesFor (consumed : List Char) (p : ScanState) : Nat × Nat :=
  countLines consumed p.pos (consumed.length + 1) 0 (p.lineNumber, p.tokenLineStartOffset)

theorem cnss_string_fail (p : ScanState) (c : List Char) :
    computeNextScanState p (.failure c) .StringLiteral =
      some { p with
             token := .StringLiteral,
             pos := p.pos + c.length,
             lineNumber := (countLinesFor c p).1,
             tokenLineStartOffset := (countLinesFor c p).2,
             scanError := .UnexpectedEndOfString } := rfl

theorem cnss_string_succ (p : ScanState) (lex : List Char) :
    computeNextScanState p (.success lex) .StringLiteral =
      some { p with
             token := .StringLiteral,
             pos := p.pos + lex.length,
             lineNumber := (countLinesFor lex p).1,
             tokenLineStartOffset := (countLinesFor lex p).2,
             value := decodeJSON5String lex } := rfl

theorem cnss_num_fail (p : ScanState) (c : List Char) :
    computeNextScanState p (.failure c) .NumericLiteral =
      some { p with
             token := .Unknown,
             pos := p.pos + c.length,
             lineNumber := (countLinesFor c p).1,
             tokenLineStartOffset := (countLinesFor c p).2 } := rfl

theorem cnss_num_succ (p : ScanState) (lex : List Char) :
    computeNextScanState p (.success lex) .NumericLiteral =
      some { p with
             token := .NumericLiteral,
             pos := p.pos + lex.length,
             lineNumber := (countLinesFor lex p).1,
             tokenLineStartOffset := (countLinesFor lex p).2,
             value := lex } := rfl

theorem cnss_line_fail (p : ScanState) (c : List Char) :
    computeNextScanState p (.failure c) .LineCommentTrivia =
      some { p with
             token := .LineCommentTrivia,
             pos := p.pos + c.length,
             lineNumber := (countLinesFor c p).1,
             tokenLineStartOffset := (countLinesFor c p).2,
             scanError := .UnexpectedEndOfComment } := rfl

theorem cnss_line_succ (p : ScanState) (lex : List Char) :
    computeNextScanState p (.success lex) .LineCommentTrivia =
      some { p with
             token := .LineCommentTrivia,
             pos := p.pos + lex.length,
             lineNumber := (countLinesFor lex p).1,
             tokenLineStartOffset := (countLinesFor lex p).2,
             value := lex } := rfl

theorem cnss_block_fail (p : ScanState) (c : List Char) :
    computeNextScanState p (.failure c) .BlockCommentTrivia =
      some { p with
             token := .BlockCommentTrivia,
             pos := p.pos + c.length,
             lineNumber := (countLinesFor c p).1,
             tokenLineStartOffset := (countLinesFor c p).2,
             scanError := .UnexpectedEndOfComment } := rfl

theorem cnss_block_succ (p : ScanState) (lex : List Char) :
    computeNextScanState p (.success lex) .BlockCommentTrivia =
      some { p with
             token := .BlockCommentTrivia,
             pos := p.pos + lex.length,
             lineNumber := (countLinesFor lex p).1,
             tokenLineStartOffset := (countLinesFor lex p).2,
             value := lex } := rfl

theorem cnss_isSome_string (p : ScanState) (r : SResult) :
    (computeNextScanState p r .StringLiteral).isSome := by
  cases r <;> simp [computeNextScanState]

theorem cnss_isSome_num (p : ScanState) (r : SResult) :
    (computeNextScanState p r .NumericLiteral).isSome := by
  cases r <;> simp [computeNextScanState]

theorem cnss_isSome_line (p : ScanState) (r : SResult) :
    (computeNextScanState p r .LineCommentTrivia).isSome := by
  cases r <;> simp [computeNextScanState]

theorem cnss_isSome_block (p : ScanState) (r : SResult) :
    (computeNextScanState p r .BlockCommentTrivia).isSome := by
  cases r <;> simp [computeNextScanState]

/-! Branch equations for scanNext, one per arm of its dispatch, each
under the (negations of the) guarding conditions in source order. -/

theorem scanNext_eof {text : List Char} {s : ScanState} (h : text.length ≤ s.pos) :
    scanNext text s =
      some { resetForScan s with tokenOffset := text.length, token := .EOF } := by
  simp only [scanNext, if_pos h]

theorem scanNext_ws {text : List Char} {s : ScanState} (h1 : ¬ text.length ≤ s.pos)
    (h2 : isWhiteSpaceChar (charAt text s.pos) = true) :
    scanNext text s =
      some { resetForScan s with
             pos := s.pos + (wsRun text s.pos).length,
             value := wsRun text s.pos,
             token := .Trivia } := by
  simp only [scanNext, if_neg h1, if_pos h2]

theorem scanNext_crlf {text : List Char} {s : ScanState} (h1 : ¬ text.length ≤ s.pos)
    (h2 : isWhiteSpaceChar (charAt text s.pos) = false)
    (h3 : isLineBreakChar (charAt text s.pos) = true)
    (h4 : (charAt text s.pos).val = 0x0D ∧ (charAt text (s.pos + 1)).val = 0x0A) :
    scanNext text s =
      some { resetForScan s with
             pos := s.pos + 2,
             value := [charAt text s.pos, Char.ofNat 0x0A],
             lineNumber := s.lineNumber + 1,
             tokenLineStartOffset := s.pos + 2,
             token := .LineBreakTrivia } := by
  simp only [scanNext, if_neg h1, h2, h3, Bool.false_eq_true, if_false, if_true, if_pos h4]

theorem scanNext_lb {text : List Char} {s : ScanState} (h1 : ¬ text.length ≤ s.pos)
    (h2 : isWhiteSpaceChar (charAt text s.pos) = false)
    (h3 : isLineBreakChar (charAt text s.pos) = true)
    (h4 : ¬ ((charAt text s.pos).val = 0x0D ∧ (charAt text (s.pos + 1)).val = 0x0A)) :
    scanNext text s =
      some { resetForScan s with
             pos := s.pos + 1,
             value := [charAt text s.pos],
             lineNumber := s.lineNumber + 1,
             tokenLineStartOffset := s.pos + 1,
             token := .LineBreakTrivia } := by
  simp only [scanNext, if_neg h1, h2, h3, Bool.false_eq_true, if_false, if_true, if_neg h4]

theorem scanNext_openBrace {text : List Char} {s : ScanState} (h1 : ¬ text.length ≤ s.pos)
    (h2 : isWhiteSpaceChar (charAt text s.pos) = false)
    (h3 : isLineBreakChar (charAt text s.pos) = false)
    (h4 : (charAt text s.pos).val = 0x7B) :
    scanNext text s =
      some { resetForScan s with pos := s.pos + 1, token := .OpenBraceToken } := by
  simp only [scanNext, if_neg h1, h2, h3, Bool.false_eq_true, if_false, if_pos h4]

theorem scanNext_closeBrace {text : List Char} {s : ScanState} (h1 : ¬ text.length ≤ s.pos)
    (h2 : isWhiteSpaceChar (charAt text s.pos) = false)
    (h3 : isLineBreakChar (charAt text s.pos) = false)
    (h4 : ¬ (charAt text s.pos).val = 0x7B)
    (h5 : (charAt text s.pos).val = 0x7D) :
    scanNext text s =
      some { resetForScan s with pos := s.pos + 1, token := .CloseBraceToken } := by
  simp only [scanNext, if_neg h1, h2, h3, Bool.false_eq_true, if_false, if_neg h4, if_pos h5]

theorem scanNext_openBracket {text : List Char} {s : ScanState} (h1 : ¬ text.length ≤ s.pos)
    (h2 : isWhiteSpaceChar (charAt text s.pos) = false)
    (h3 : isLineBreakChar (charAt text s.pos) = false)
    (h4 : ¬ (charAt text s.pos).val = 0x7B)
    (h5 : ¬ (charAt text s.pos).val = 0x7D)
    (h6 : (charAt text s.pos).val = 0x5B) :
    scanNext text s =
      some { resetForScan s with pos := s.pos + 1, token := .OpenBracketToken } := by
  simp only [scanNext, if_neg h1, h2, h3, Bool.false_eq_true, if_false, if_neg h4, if_neg h5,
    if_pos h6]

theorem scanNext_closeBracket {text : List Char} {s : ScanState} (h1 : ¬ text.length ≤ s.pos)
    (h2 : isWhiteSpaceChar (charAt text s.pos) = false)
    (h3 : isLineBreakChar (charAt text s.pos) = false)
    (h4 : ¬ (charAt text s.pos).val = 0x7B)
    (h5 : ¬ (charAt text s.pos).val = 0x7D)
    (h6 : ¬ (charAt text s.pos).val = 0x5B)
    (h7 : (charAt text s.pos).val = 0x5D) :
    scanNext text s =
      some { resetForScan s with pos := s.pos + 1, token := .CloseBracketToken } := by
  simp only [scanNext, if_neg h1, h2, h3, Bool.false_eq_true, if_false, if_neg h4, if_neg h5,
    if_neg h6, if_pos h7]

theorem scanNext_colon {text : List Char} {s : ScanState} (h1 : ¬ text.length ≤ s.pos)
    (h2 : isWhiteSpaceChar (charAt text s.pos) = false)
    (h3 : isLineBreakChar (charAt text s.pos) = false)
    (h4 : ¬ (charAt text s.pos).val = 0x7B)
    (h5 : ¬ (charAt text s.pos).val = 0x7D)
    (h6 : ¬ (charAt text s.pos).val = 0x5B)
    (h7 : ¬ (charAt text s.pos).val = 0x5D)
    (h8 : (charAt text s.pos).val = 0x3A) :
    scanNext text s =
      some { resetForScan s with pos := s.pos + 1, token := .ColonToken } := by
  simp only [scanNext, if_neg h1, h2, h3, Bool.false_eq_true, if_false, if_neg h4, if_neg h5,
    if_neg h6, if_neg h7, if_pos h8]

theorem scanNext_comma {text : List Char} {s : ScanState} (h1 : ¬ text.length ≤ s.pos)
    (h2 : isWhiteSpaceChar (charAt text s.pos) = false)
    (h3 : isLineBreakChar (charAt text s.pos) = false)
    (h4 : ¬ (charAt text s.pos).val = 0x7B)
    (h5 : ¬ (charAt text s.pos).val = 0x7D)
    (h6 : ¬ (charAt text s.pos).val = 0x5B)
    (h7 : ¬ (charAt text s.pos).val = 0x5D)
    (h8 : ¬ (charAt text s.pos).val = 0x3A)
    (h9 : (charAt text s.pos).val = 0x2C) :
    scanNext text s =
      some { resetForScan s with pos := s.pos + 1, token := .CommaToken } := by
  simp only [scanNext, if_neg h1, h2, h3, Bool.false_eq_true, if_false, if_neg h4, if_neg h5,
    if_neg h6, if_neg h7, if_neg h8, if_pos h9]

theorem scanNext_string {text : List Char} {s : ScanState} (h1 : ¬ text.length ≤ s.pos)
    (h2 : isWhiteSpaceChar (charAt text s.pos) = false)
    (h3 : isLineBreakChar (charAt text s.pos) = false)
    (h4 : charAt text s.pos = dq ∨ charAt text s.pos = sq) :
    scanNext text s =
      computeNextScanState (resetForScan s) (scanJSON5String (text.drop s.pos))
        .StringLiteral := by
  have hb : ¬ ((charAt text s.pos).val = 0x7B) := by
    rcases h4 with h | h <;> rw [h] <;> decide
  have hcb : ¬ ((charAt text s.pos).val = 0x7D) := by
    rcases h4 with h | h <;> rw [h] <;> decide
  have hob : ¬ ((charAt text s.pos).val = 0x5B) := by
    rcases h4 with h | h <;> rw [h] <;> decide
  have hcb2 : ¬ ((charAt text s.pos).val = 0x5D) := by
    rcases h4 with h | h <;> rw [h] <;> decide
  have hco : ¬ ((charAt text s.pos).val = 0x3A) := by
    rcases h4 with h | h <;> rw [h] <;> decide
  have hcm : ¬ ((charAt text s.pos).val = 0x2C) := by
    rcases h4 with h | h <;> rw [h] <;> decide
  simp only [scanNext, if_neg h1, h2, h3, Bool.false_eq_true, if_false, if_neg hb, if_neg hcb,
    if_neg hob, if_neg hcb2, if_neg hco, if_neg hcm, if_pos h4]

theorem scanNext_lineComment {text : List Char} {s : ScanState} (h1 : ¬ text.length ≤ s.pos)
    (h2 : isWhiteSpaceChar (charAt text s.pos) = false)
    (h3 : isLineBreakChar (charAt text s.pos) = false)
    (h4 : (charAt text s.pos).val = 0x2F)
    (h5 : (charAt text (s.pos + 1)).val = 0x2F) :
    scanNext text s =
      computeNextScanState (resetForScan s) (scanSingleLineComment (text.drop s.pos))
        .LineCommentTrivia := by
  have hstr : ¬ (charAt text s.pos = dq ∨ charAt text s.pos = sq) := by
    rintro (h | h) <;> rw [h] at h4 <;> exact absurd h4 (by decide)
  have hb : ¬ ((charAt text s.pos).val = 0x7B) := by rw [h4]; decide
  have hcb : ¬ ((charAt text s.pos).val = 0x7D) := by rw [h4]; decide
  have hob : ¬ ((charAt text s.pos).val = 0x5B) := by rw [h4]; decide
  have hcb2 : ¬ ((charAt text s.pos).val = 0x5D) := by rw [h4]; decide
  have hco : ¬ ((charAt text s.pos).val = 0x3A) := by rw [h4]; decide
  have hcm : ¬ ((charAt text s.pos).val = 0x2C) := by rw [h4]; decide
  simp only [scanNext, if_neg h1, h2, h3, Bool.false_eq_true, if_false, if_neg hb, if_neg hcb,
    if_neg hob, if_neg hcb2, if_neg hco, if_neg hcm, if_neg hstr, if_pos h4, if_pos h5]

theorem scanNext_blockComment {text : List Char} {s : ScanState} (h1 : ¬ text.length ≤ s.pos)
    (h2 : isWhiteSpaceChar (charAt text s.pos) = false)
    (h3 : isLineBreakChar (charAt text s.pos) = false)
    (h4 : (charAt text s.pos).val = 0x2F)
    (h5 : ¬ (charAt text (s.pos + 1)).val = 0x2F)
    (h6 : (charAt text (s.pos + 1)).val = 0x2A) :
    scanNext text s =
      computeNextScanState (resetForScan s) (scanMultiLineComment (text.drop s.pos))
        .BlockCommentTrivia := by
  have hstr : ¬ (charAt text s.pos = dq ∨ charAt text s.pos = sq) := by
    rintro (h | h) <;> rw [h] at h4 <;> exact absurd h4 (by decide)
  have hb : ¬ ((charAt text s.pos).val = 0x7B) := by rw [h4]; decide
  have hcb : ¬ ((charAt text s.pos).val = 0x7D) := by rw [h4]; decide
  have hob : ¬ ((charAt text s.pos).val = 0x5B) := by rw [h4]; decide
  have hcb2 : ¬ ((charAt text s.pos).val = 0x5D) := by rw [h4]; decide
  have hco : ¬ ((charAt text s.pos).val = 0x3A) := by rw [h4]; decide
  have hcm : ¬ ((charAt text s.pos).val = 0x2C) := by rw [h4]; decide
  simp only [scanNext, if_neg h1, h2, h3, Bool.false_eq_true, if_false, if_neg hb, if_neg hcb,
    if_neg hob, if_neg hcb2, if_neg hco, if_neg hcm, if_neg hstr, if_pos h4, if_neg h5,
    if_pos h6]

theorem scanNext_slash {text : List Char} {s : ScanState} (h1 : ¬ text.length ≤ s.pos)
    (h2 : isWhiteSpaceChar (charAt text s.pos) = false)
    (h3 : isLineBreakChar (charAt text s.pos) = false)
    (h4 : (charAt text s.pos).val = 0x2F)
    (h5 : ¬ (charAt text (s.pos + 1)).val = 0x2F)
    (h6 : ¬ (charAt text (s.pos + 1)).val = 0x2A) :
    scanNext text s =
      some { resetForScan s with
             value := (resetForScan s).value ++ [charAt text s.pos],
             pos := s.pos + 1,
             token := .Unknown } := by
  have hstr : ¬ (charAt text s.pos = dq ∨ charAt text s.pos = sq) := by
    rintro (h | h) <;> rw [h] at h4 <;> exact absurd h4 (by decide)
  have hb : ¬ ((charAt text s.pos).val = 0x7B) := by rw [h4]; decide
  have hcb : ¬ ((charAt text s.pos).val = 0x7D) := by rw [h4]; decide
  have hob : ¬ ((charAt text s.pos).val = 0x5B) := by rw [h4]; decide
  have hcb2 : ¬ ((charAt text s.pos).val = 0x5D) := by rw [h4]; decide
  have hco : ¬ ((charAt text s.pos).val = 0x3A) := by rw [h4]; decide
  have hcm : ¬ ((charAt text s.pos).val = 0x2C) := by rw [h4]; decide
  simp only [scanNext, if_neg h1, h2, h3, Bool.false_eq_true, if_false, if_neg hb, if_neg hcb,
    if_neg hob, if_neg hcb2, if_neg hco, if_neg hcm, if_neg hstr, if_pos h4, if_neg h5,
    if_neg h6]

theorem scanNext_number {text : List Char} {s : ScanState} (h1 : ¬ text.length ≤ s.pos)
    (h2 : isWhiteSpaceChar (charAt text s.pos) = false)
    (h3 : isLineBreakChar (charAt text s.pos) = false)
    (h4 : ¬ (charAt text s.pos).val = 0x7B)
    (h5 : ¬ (charAt text s.pos).val = 0x7D)
    (h6 : ¬ (charAt text s.pos).val = 0x5B)
    (h7 : ¬ (charAt text s.pos).val = 0x5D)
    (h8 : ¬ (charAt text s.pos).val = 0x3A)
    (h9 : ¬ (charAt text s.pos).val = 0x2C)
    (h10 : ¬ (charAt text s.pos = dq ∨ charAt text s.pos = sq))
    (h11 : ¬ (charAt text s.pos).val = 0x2F)
    (h12 : isNumberStartChar (charAt text s.pos) = true) :
    scanNext text s =
      computeNextScanState (resetForScan s) (scanJSON5Number (text.drop s.pos))
        .NumericLiteral := by
  simp only [scanNext, if_neg h1, h2, h3, Bool.false_eq_true, if_false, if_neg h4, if_neg h5,
    if_neg h6, if_neg h7, if_neg h8, if_neg h9, if_neg h10, if_neg h11, h12, if_true]

theorem scanNext_word {text : List Char} {s : ScanState} (h1 : ¬ text.length ≤ s.pos)
    (h2 : isWhiteSpaceChar (charAt text s.pos) = false)
    (h3 : isLineBreakChar (charAt text s.pos) = false)
    (h4 : ¬ (charAt text s.pos).val = 0x7B)
    (h5 : ¬ (charAt text s.pos).val = 0x7D)
    (h6 : ¬ (charAt text s.pos).val = 0x5B)
    (h7 : ¬ (charAt text s.pos).val = 0x5D)
    (h8 : ¬ (charAt text s.pos).val = 0x3A)
    (h9 : ¬ (charAt text s.pos).val = 0x2C)
    (h10 : ¬ (charAt text s.pos = dq ∨ charAt text s.pos = sq))
    (h11 : ¬ (charAt text s.pos).val = 0x2F)
    (h12 : isNumberStartChar (charAt text s.pos) = false)
    (h13 : (unknownRun text s.pos).length ≠ 0) :
    scanNext text s =
      some { resetForScan s with
             pos := s.pos + (unknownRun text s.pos).length,
             value := unknownRun text s.pos,
             token := unknownWordToken (unknownRun text s.pos) } := by
  simp only [scanNext, if_neg h1, h2, h3, h12, Bool.false_eq_true, if_false, if_neg h4,
    if_neg h5, if_neg h6, if_neg h7, if_neg h8, if_neg h9, if_neg h10, if_neg h11,
    if_pos h13]

theorem scanNext_unknownChar {text : List Char} {s : ScanState} (h1 : ¬ text.length ≤ s.pos)
    (h2 : isWhiteSpaceChar (charAt text s.pos) = false)
    (h3 : isLineBreakChar (charAt text s.pos) = false)
    (h4 : ¬ (charAt text s.pos).val = 0x7B)
    (h5 : ¬ (charAt text s.pos).val = 0x7D)
    (h6 : ¬ (charAt text s.pos).val = 0x5B)
    (h7 : ¬ (charAt text s.pos).val = 0x5D)
    (h8 : ¬ (charAt text s.pos).val = 0x3A)
    (h9 : ¬ (charAt text s.pos).val = 0x2C)
    (h10 : ¬ (charAt text s.pos = dq ∨ charAt text s.pos = sq))
    (h11 : ¬ (charAt text s.pos).val = 0x2F)
    (h12 : isNumberStartChar (charAt text s.pos) = false)
    (h13 : ¬ (unknownRun text s.pos).length ≠ 0) :
    scanNext text s =
      some { resetForScan s with
             value := (resetForScan s).value ++ [charAt text s.pos],
             pos := s.pos + 1,
             token := .Unknown } := by
  simp only [scanNext, if_neg h1, h2, h3, h12, Bool.false_eq_true, if_false, if_neg h4,
    if_neg h5, if_neg h6, if_neg h7, if_neg h8, if_neg h9, if_neg h10, if_neg h11,
    if_neg h13]

theorem scanNext_isSome (text : List Char) (s : ScanState) : (scanNext text s).isSome := by
  by_cases h1 : text.length ≤ s.pos
  · rw [scanNext_eof h1]; rfl
  by_cases h2 : isWhiteSpaceChar (charAt text s.pos) = true
  · rw [scanNext_ws h1 h2]; rfl
  rw [Bool.not_eq_true] at h2
  by_cases h3 : isLineBreakChar (charAt text s.pos) = true
  · by_cases h4 : (charAt text s.pos).val = 0x0D ∧ (charAt text (s.pos + 1)).val = 0x0A
    · rw [scanNext_crlf h1 h2 h3 h4]; rfl
    · rw [scanNext_lb h1 h2 h3 h4]; rfl
  rw [Bool.not_eq_true] at h3
  by_cases h4 : (charAt text s.pos).val = 0x7B
  · rw [scanNext_openBrace h1 h2 h3 h4]; rfl
  by_cases h5 : (charAt text s.pos).val = 0x7D
  · rw [scanNext_closeBrace h1 h2 h3 h4 h5]; rfl
  by_cases h6 : (charAt text s.pos).val = 0x5B
  · rw [scanNext_openBracket h1 h2 h3 h4 h5 h6]; rfl
  by_cases h7 : (charAt text s.pos).val = 0x5D
  · rw [scanNext_closeBracket h1 h2 h3 h4 h5 h6 h7]; rfl
  by_cases h8 : (charAt text s.pos).val = 0x3A
  · rw [scanNext_colon h1 h2 h3 h4 h5 h6 h7 h8]; rfl
  by_cases h9 : (charAt text s.pos).val = 0x2C
  · rw [scanNext_comma h1 h2 h3 h4 h5 h6 h7 h8 h9]; rfl
  by_cases h10 : charAt text s.pos = dq ∨ charAt text s.pos = sq
  · rw [scanNext_string h1 h2 h3 h10]
    exact cnss_isSome_string _ _
  by_cases h11 : (charAt text s.pos).val = 0x2F
  · by_cases h12 : (charAt text (s.pos + 1)).val = 0x2F
    · rw [scanNext_lineComment h1 h2 h3 h11 h12]
      exact cnss_isSome_line _ _
    by_cases h13 : (charAt text (s.pos + 1)).val = 0x2A
    · rw [scanNext_blockComment h1 h2 h3 h11 h12 h13]
      exact cnss_isSome_block _ _
    · rw [scanNext_slash h1 h2 h3 h11 h12 h13]; rfl
  by_cases h12 : isNumberStartChar (charAt text s.pos) = true
  · rw [scanNext_number h1 h2 h3 h4 h5 h6 h7 h8 h9 h10 h11 h12]
    exact cnss_isSome_num _ _
  rw [Bool.not_eq_true] at h12
  by_cases h13 : (unknownRun text s.pos).length ≠ 0
  · rw [scanNext_word h1 h2 h3 h4 h5 h6 h7 h8 h9 h10 h11 h12 h13]; rfl
  · rw [scanNext_unknownChar h1 h2 h3 h4 h5 h6 h7 h8 h9 h10 h11 h12 h13]; rfl

theorem scanNext_eq_scanNextD (text : List Char) (s : ScanState) :
    scanNext text s = some (scanNextD text s) := by
  have h := scanNext_isSome text s
  cases he : scanNext text s with
  | none => rw [he] at h; simp at h
  | some s' => simp [scanNextD, he]

theorem scanNextD_eq {text : List Char} {s st : ScanState}
    (h : scanNext text s = some st) : scanNextD text s = st := by
  simp [scanNextD, h]

theorem drop_eq_charAt_cons {text : List Char} {pos : Nat} (h : pos < text.length) :
    text.drop pos = charAt text pos :: text.drop (pos + 1) := by
  rw [charAt, List.getD_eq_getElem _ _ h]
  exact List.drop_eq_getElem_cons h

theorem lt_length_of_charAt_ne {text : List Char} {i : Nat}
    (h : charAt text i ≠ Char.ofNat 0) : i < text.length := by
  by_contra hn
  push_neg at hn
  exact h (by simp [charAt, List.getD, List.getElem?_eq_none hn])

theorem wsRun_length_pos {text : List Char} {pos : Nat} (h : pos < text.length)
    (hws : isWhiteSpaceChar (charAt text pos) = true) :
    1 ≤ (wsRun text pos).length := by
  rw [wsRun, drop_eq_charAt_cons h, List.takeWhile_cons, hws]
  simp

theorem wsRun_length_le (text : List Char) (pos : Nat) :
    (wsRun text pos).length ≤ text.length - pos := by
  have := (List.takeWhile_prefix isWhiteSpaceChar
    (l := text.drop pos)).length_le
  simpa [wsRun] using this

theorem unknownRun_length_le (text : List Char) (pos : Nat) :
    (unknownRun text pos).length ≤ text.length - pos := by
  have := (List.takeWhile_prefix isUnknownContentChar
    (l := text.drop pos)).length_le
  simpa [unknownRun] using this

theorem unknownWordToken_ne_eof (v : List Char) : unknownWordToken v ≠ .EOF := by
  unfold unknownWordToken
  split_ifs <;> decide

theorem countLines_snd_le (consumed : List Char) (prevPos : Nat) :
    ∀ (fuel index ln tls : Nat), tls ≤ prevPos + consumed.length →
      (countLines consumed prevPos fuel index (ln, tls)).2 ≤ prevPos + consumed.length := by
  intro fuel
  induction fuel with
  | zero => intro idx ln tls h; simpa [countLines] using h
  | succ n ih =>
      intro idx ln tls h
      simp only [countLines]
      split
      · next hidx =>
          cases hlts : scanLineTerminatorSequence (consumed.drop idx) with
          | success lex =>
              apply ih
              have hb := bounded_scanLineTerminatorSequence (consumed.drop idx)
              rw [hlts] at hb
              simp only [resLen, covered, List.length_drop] at hb
              omega
          | failure c => exact ih _ _ _ h
      · simpa using h

theorem countLinesFor_snd_le {consumed : List Char} {p : ScanState}
    (h : p.tokenLineStartOffset ≤ p.pos) :
    (countLinesFor consumed p).2 ≤ p.pos + consumed.length := by
  apply countLines_snd_le
  omega

/-- Shape of the state computed for a string token: position advances by
the covered length, the kind is StringLiteral, offsets pass through, and
the line-start bookkeeping never runs ahead of the new position. -/
theorem cnss_shape_string (p : ScanState) (r : SResult) :
    ∃ st, computeNextScanState p r .StringLiteral = some st ∧
      st.pos = p.pos + resLen r ∧ st.token = .StringLiteral ∧
      st.tokenOffset = p.tokenOffset ∧
      st.prevTokenLineStartOffset = p.prevTokenLineStartOffset ∧
      (p.tokenLineStartOffset ≤ p.pos → st.tokenLineStartOffset ≤ st.pos) := by
  cases r with
  | success lex =>
      exact ⟨_, cnss_string_succ p lex, rfl, rfl, rfl, rfl,
        fun h => countLinesFor_snd_le h⟩
  | failure c =>
      exact ⟨_, cnss_string_fail p c, rfl, rfl, rfl, rfl,
        fun h => countLinesFor_snd_le h⟩

theorem cnss_shape_num (p : ScanState) (r : SResult) :
    ∃ st, computeNextScanState p r .NumericLiteral = some st ∧
      st.pos = p.pos + resLen r ∧
      (st.token = .NumericLiteral ∨ st.token = .Unknown) ∧
      st.tokenOffset = p.tokenOffset ∧
      st.prevTokenLineStartOffset = p.prevTokenLineStartOffset ∧
      (p.tokenLineStartOffset ≤ p.pos → st.tokenLineStartOffset ≤ st.pos) := by
  cases r with
  | success lex =>
      exact ⟨_, cnss_num_succ p lex, rfl, Or.inl rfl, rfl, rfl,
        fun h => countLinesFor_snd_le h⟩
  | failure c =>
      exact ⟨_, cnss_num_fail p c, rfl, Or.inr rfl, rfl, rfl,
        fun h => countLinesFor_snd_le h⟩

theorem cnss_shape_line (p : ScanState) (r : SResult) :
    ∃ st, computeNextScanState p r .LineCommentTrivia = some st ∧
      st.pos = p.pos + resLen r ∧ st.token = .LineCommentTrivia ∧
      st.tokenOffset = p.tokenOffset ∧
      st.prevTokenLineStartOffset = p.prevTokenLineStartOffset ∧
      (p.tokenLineStartOffset ≤ p.pos → st.tokenLineStartOffset ≤ st.pos) := by
  cases r with
  | success lex =>
      exact ⟨_, cnss_line_succ p lex, rfl, rfl, rfl, rfl,
        fun h => countLinesFor_snd_le h⟩
  | failure c =>
      exact ⟨_, cnss_line_fail p c, rfl, rfl, rfl, rfl,
        fun h => countLinesFor_snd_le h⟩

theorem cnss_shape_block (p : ScanState) (r : SResult) :
    ∃ st, computeNextScanState p r .BlockCommentTrivia = some st ∧
      st.pos = p.pos + resLen r ∧ st.token = .BlockCommentTrivia ∧
      st.tokenOffset = p.tokenOffset ∧
      st.prevTokenLineStartOffset = p.prevTokenLineStartOffset ∧
      (p.tokenLineStartOffset ≤ p.pos → st.tokenLineStartOffset ≤ st.pos) := by
  cases r with
  | success lex =>
      exact ⟨_, cnss_block_succ p lex, rfl, rfl, rfl, rfl,
        fun h => countLinesFor_snd_le h⟩
  | failure c =>
      exact ⟨_, cnss_block_fail p c, rfl, rfl, rfl, rfl,
        fun h => countLinesFor_snd_le h⟩

/-- The per-scan facts needed for progress, EOF-freedom and the
line-start invariant, for a scan that starts strictly inside the text. -/
theorem scanNextD_master (text : List Char) (s : ScanState) (h : s.pos < text.length) :
    s.pos < (scanNextD text s).pos ∧ (scanNextD text s).pos ≤ text.length ∧
    (scanNextD text s).token ≠ .EOF ∧
    (scanNextD text s).tokenOffset = s.pos ∧
    (scanNextD text s).prevTokenLineStartOffset = s.tokenLineStartOffset ∧
    (s.tokenLineStartOffset ≤ s.pos →
      (scanNextD text s).tokenLineStartOffset ≤ (scanNextD text s).pos) := by
  have h1 : ¬ text.length ≤ s.pos := by omega
  by_cases h2 : isWhiteSpaceChar (charAt text s.pos) = true
  · rw [scanNextD_eq (scanNext_ws h1 h2)]
    have hp := wsRun_length_pos h h2
    have hb := wsRun_length_le text s.pos
    refine ⟨by simp; omega, by simp; omega, by simp, by simp, by simp, by simp; omega⟩
  rw [Bool.not_eq_true] at h2
  by_cases h3 : isLineBreakChar (charAt text s.pos) = true
  · by_cases h4 : (charAt text s.pos).val = 0x0D ∧ (charAt text (s.pos + 1)).val = 0x0A
    · rw [scanNextD_eq (scanNext_crlf h1 h2 h3 h4)]
      have hlt : s.pos + 1 < text.length := by
        apply lt_length_of_charAt_ne
        intro he
        rw [he] at h4
        exact absurd h4.2 (by decide)
      exact ⟨by simp, by simp; omega, by simp, by simp, by simp, by simp⟩
    · rw [scanNextD_eq (scanNext_lb h1 h2 h3 h4)]
      exact ⟨by simp, by simp; omega, by simp, by simp, by simp, by simp⟩
  rw [Bool.not_eq_true] at h3
  by_cases h4 : (charAt text s.pos).val = 0x7B
  · rw [scanNextD_eq (scanNext_openBrace h1 h2 h3 h4)]
    exact ⟨by simp, by simp; omega, by simp, by simp, by simp, by simp; omega⟩
  by_cases h5 : (charAt text s.pos).val = 0x7D
  · rw [scanNextD_eq (scanNext_closeBrace h1 h2 h3 h4 h5)]
    exact ⟨by simp, by simp; omega, by simp, by simp, by simp, by simp; omega⟩
  by_cases h6 : (charAt text s.pos).val = 0x5B
  · rw [scanNextD_eq (scanNext_openBracket h1 h2 h3 h4 h5 h6)]
    exact ⟨by simp, by simp; omega, by simp, by simp, by simp, by simp; omega⟩
  by_cases h7 : (charAt text s.pos).val = 0x5D
  · rw [scanNextD_eq (scanNext_closeBracket h1 h2 h3 h4 h5 h6 h7)]
    exact ⟨by simp, by simp; omega, by simp, by simp, by simp, by simp; omega⟩
  by_cases h8 : (charAt text s.pos).val = 0x3A
  · rw [scanNextD_eq (scanNext_colon h1 h2 h3 h4 h5 h6 h7 h8)]
    exact ⟨by simp, by simp; omega, by simp, by simp, by simp, by simp; omega⟩
  by_cases h9 : (charAt text s.pos).val = 0x2C
  · rw [scanNextD_eq (scanNext_comma h1 h2 h3 h4 h5 h6 h7 h8 h9)]
    exact ⟨by simp, by simp; omega, by simp, by simp, by simp, by simp; omega⟩
  by_cases h10 : charAt text s.pos = dq ∨ charAt text s.pos = sq
  · obtain ⟨st, hst, hpos, htok, hoff, hprev, htls⟩ :=
      cnss_shape_string (resetForScan s) (scanJSON5String (text.drop s.pos))
    rw [scanNextD_eq ((scanNext_string h1 h2 h3 h10).trans hst)]
    have hlen : 1 ≤ resLen (scanJSON5String (text.drop s.pos)) := by
      rcases h10 with hq | hq <;> rw [drop_eq_charAt_cons h, hq]
      · exact scanJSON5String_pos_dq _
      · exact scanJSON5String_pos_sq _
    have hbd := bounded_scanJSON5String (text.drop s.pos)
    rw [List.length_drop] at hbd
    simp only [resetForScan_pos, resetForScan_tokenOffset,
      resetForScan_prevTokenLineStartOffset, resetForScan_tokenLineStartOffset] at *
    refine ⟨by omega, by omega, by rw [htok]; decide, hoff, hprev, fun hI => htls (by omega)⟩
  by_cases h11 : (charAt text s.pos).val = 0x2F
  · by_cases h12 : (charAt text (s.pos + 1)).val = 0x2F
    · obtain ⟨st, hst, hpos, htok, hoff, hprev, htls⟩ :=
        cnss_shape_line (resetForScan s) (scanSingleLineComment (text.drop s.pos))
      rw [scanNextD_eq ((scanNext_lineComment h1 h2 h3 h11 h12).trans hst)]
      have hlt2 : s.pos + 1 < text.length := by
        apply lt_length_of_charAt_ne
        intro he
        rw [he] at h12
        exact absurd h12 (by decide)
      have hlen : 1 ≤ resLen (scanSingleLineComment (text.drop s.pos)) := by
        rw [drop_eq_charAt_cons h, drop_eq_charAt_cons hlt2]
        have hc1 : charAt text s.pos = '/' := by
          apply Char.ext
          apply UInt32.toNat.inj
          simpa using congrArg UInt32.toNat h11
        have hc2 : charAt text (s.pos + 1) = '/' := by
          apply Char.ext
          apply UInt32.toNat.inj
          simpa using congrArg UInt32.toNat h12
        rw [hc1, hc2]
        exact scanSingleLineComment_pos _
      have hbd := bounded_scanSingleLineComment (text.drop s.pos)
      rw [List.length_drop] at hbd
      simp only [resetForScan_pos, resetForScan_tokenOffset,
        resetForScan_prevTokenLineStartOffset, resetForScan_tokenLineStartOffset] at *
      refine ⟨by omega, by omega, by rw [htok]; decide, hoff, hprev, fun hI => htls (by omega)⟩
    by_cases h13 : (charAt text (s.pos + 1)).val = 0x2A
    · obtain ⟨st, hst, hpos, htok, hoff, hprev, htls⟩ :=
        cnss_shape_block (resetForScan s) (scanMultiLineComment (text.drop s.pos))
      rw [scanNextD_eq ((scanNext_blockComment h1 h2 h3 h11 h12 h13).trans hst)]
      have hlt2 : s.pos + 1 < text.length := by
        apply lt_length_of_charAt_ne
        intro he
        rw [he] at h13
        exact absurd h13 (by decide)
      have hlen : 1 ≤ resLen (scanMultiLineComment (text.drop s.pos)) := by
        rw [drop_eq_charAt_cons h, drop_eq_charAt_cons hlt2]
        have hc1 : charAt text s.pos = '/' := by
          apply Char.ext
          apply UInt32.toNat.inj
          simpa using congrArg UInt32.toNat h11
        have hc2 : charAt text (s.pos + 1) = '*' := by
          apply Char.ext
          apply UInt32.toNat.inj
          simpa using congrArg UInt32.toNat h13
        rw [hc1, hc2]
        exact scanMultiLineComment_pos _
      have hbd := bounded_scanMultiLineComment (text.drop s.pos)
      rw [List.length_drop] at hbd
      simp only [resetForScan_pos, resetForScan_tokenOffset,
        resetForScan_prevTokenLineStartOffset, resetForScan_tokenLineStartOffset] at *
      refine ⟨by omega, by omega, by rw [htok]; decide, hoff, hprev, fun hI => htls (by omega)⟩
    · rw [scanNextD_eq (scanNext_slash h1 h2 h3 h11 h12 h13)]
      exact ⟨by simp, by simp; omega, by simp, by simp, by simp, by simp; omega⟩
  by_cases h12 : isNumberStartChar (charAt text s.pos) = true
  · obtain ⟨st, hst, hpos, htok, hoff, hprev, htls⟩ :=
      cnss_shape_num (resetForScan s) (scanJSON5Number (text.drop s.pos))
    rw [scanNextD_eq ((scanNext_number h1 h2 h3 h4 h5 h6 h7 h8 h9 h10 h11 h12).trans hst)]
    have hlen : 1 ≤ resLen (scanJSON5Number (text.drop s.pos)) := by
      rw [drop_eq_charAt_cons h]
      have hv : (charAt text s.pos).val = 0x2D ∨ (charAt text s.pos).val = 0x2B ∨
          (charAt text s.pos).val = 0x2E ∨
          (0x30 ≤ (charAt text s.pos).val ∧ (charAt text s.pos).val ≤ 0x39) := by
        simpa [isNumberStartChar, decide_eq_true_eq] using h12
      rcases hv with hv | hv | hv | hv
      · have : charAt text s.pos = '-' := by
          apply Char.ext
          apply UInt32.toNat.inj
          simpa using congrArg UInt32.toNat hv
        rw [this]
        exact scanJSON5Number_pos_minus _
      · have : charAt text s.pos = '+' := by
          apply Char.ext
          apply UInt32.toNat.inj
          simpa using congrArg UInt32.toNat hv
        rw [this]
        exact scanJSON5Number_pos_plus _
      · have : charAt text s.pos = '.' := by
          apply Char.ext
          apply UInt32.toNat.inj
          simpa using congrArg UInt32.toNat hv
        rw [this]
        exact scanJSON5Number_pos_dot _
      · apply scanJSON5Number_pos_digit
        exact ⟨hv.1, hv.2⟩
    have hbd := bounded_scanJSON5Number (text.drop s.pos)
    rw [List.length_drop] at hbd
    simp only [resetForScan_pos, resetForScan_tokenOffset,
      resetForScan_prevTokenLineStartOffset, resetForScan_tokenLineStartOffset] at *
    refine ⟨by omega, by omega, ?_, hoff, hprev, fun hI => htls (by omega)⟩
    rcases htok with ht | ht <;> rw [ht] <;> decide
  rw [Bool.not_eq_true] at h12
  by_cases h13 : (unknownRun text s.pos).length ≠ 0
  · rw [scanNextD_eq (scanNext_word h1 h2 h3 h4 h5 h6 h7 h8 h9 h10 h11 h12 h13)]
    have hb := unknownRun_length_le text s.pos
    refine ⟨by simp; omega, by simp; omega, ?_, by simp, by simp, by simp; omega⟩
    simpa using unknownWordToken_ne_eof (unknownRun text s.pos)
  · rw [scanNextD_eq (scanNext_unknownChar h1 h2 h3 h4 h5 h6 h7 h8 h9 h10 h11 h12 h13)]
    exact ⟨by simp, by simp; omega, by simp, by simp, by simp, by simp; omega⟩

/-- The EOF arm of scanNext: at or past the end, the token is EOF, the
position does not move, and tokenOffset is the text length. -/
theorem scanNextD_eof_facts (text : List Char) (s : ScanState) (h : text.length ≤ s.pos) :
    (scanNextD text s).token = .EOF ∧ (scanNextD text s).pos = s.pos ∧
    (scanNextD text s).tokenOffset = text.length ∧
    (scanNextD text s).prevTokenLineStartOffset = s.tokenLineStartOffset ∧
    (scanNextD text s).tokenLineStartOffset = s.tokenLineStartOffset := by
  rw [scanNextD_eq (scanNext_eof h)]
  exact ⟨rfl, rfl, rfl, rfl, rfl⟩

/-- A digit character fails every guard of scanNext that precedes the
number arm. -/
theorem digit_char_facts {c : Char} (h48 : 48 ≤ c.val.toNat) (h57 : c.val.toNat ≤ 57) :
    isWhiteSpaceChar c = false ∧ isLineBreakChar c = false ∧
    ¬ c.val = 0x7B ∧ ¬ c.val = 0x7D ∧ ¬ c.val = 0x5B ∧ ¬ c.val = 0x5D ∧
    ¬ c.val = 0x3A ∧ ¬ c.val = 0x2C ∧ ¬ (c = dq ∨ c = sq) ∧ ¬ c.val = 0x2F := by
  have hdq : dq.val.toNat = 34 := by decide
  have hsq : sq.val.toNat = 39 := by decide
  refine ⟨?_, ?_, ?_, ?_, ?_, ?_, ?_, ?_, ?_, ?_⟩
  · apply decide_eq_false
    intro hP
    rcases hP with h | h | h | h | h | h | ⟨ha, hb⟩ | h | h | h | h
    all_goals
      first
        | (have hh := congrArg UInt32.toNat h
           simp [UInt32.size] at hh
           omega)
        | (have ha' : (8192 : Nat) ≤ c.val.toNat := ha
           omega)
  · apply decide_eq_false
    intro hP
    rcases hP with h | h | h | h
    all_goals
      (have hh := congrArg UInt32.toNat h
       simp [UInt32.size] at hh
       omega)
  all_goals
    first
      | (intro h
         have hh := congrArg UInt32.toNat h
         simp [UInt32.size] at hh
         omega)
      | (rintro (h | h) <;>
          · have hh := congrArg (fun x : Char => x.val.toNat) h
            simp only [hdq, hsq] at hh
            omega)

/-- A number-start character fails every guard of scanNext that precedes
the number arm. -/
theorem numberStart_branch_facts {c : Char} (h : isNumberStartChar c = true) :
    isWhiteSpaceChar c = false ∧ isLineBreakChar c = false ∧
    ¬ c.val = 0x7B ∧ ¬ c.val = 0x7D ∧ ¬ c.val = 0x5B ∧ ¬ c.val = 0x5D ∧
    ¬ c.val = 0x3A ∧ ¬ c.val = 0x2C ∧ ¬ (c = dq ∨ c = sq) ∧ ¬ c.val = 0x2F := by
  have hv : c.val = 0x2D ∨ c.val = 0x2B ∨ c.val = 0x2E ∨
      (0x30 ≤ c.val ∧ c.val ≤ 0x39) := by
    simpa [isNumberStartChar, decide_eq_true_eq] using h
  rcases hv with hv | hv | hv | ⟨ha, hb⟩
  · have hc : c = '-' := Char.ext (hv.trans (by decide))
    subst hc; decide
  · have hc : c = '+' := Char.ext (hv.trans (by decide))
    subst hc; decide
  · have hc : c = '.' := Char.ext (hv.trans (by decide))
    subst hc; decide
  · exact digit_char_facts (le_trans (by decide) ha) (le_trans hb (by decide))

theorem stringStart_branch_facts {c : Char} (h : c = dq ∨ c = sq) :
    isWhiteSpaceChar c = false ∧ isLineBreakChar c = false := by
  rcases h with h | h <;> subst h <;> exact ⟨by decide, by decide⟩

/-- Outcome of scanNext when the string production fails: kind String,
scan error UnexpectedEndOfString, the position advanced by the consumed
length, and an empty token value. -/
theorem scanNextD_string_fail {text : List Char} {s : ScanState} (h : s.pos < text.length)
    (hq : charAt text s.pos = dq ∨ charAt text s.pos = sq) {c : List Char}
    (hfail : scanJSON5String (text.drop s.pos) = .failure c) :
    (scanNextD text s).token = .StringLiteral ∧
    (scanNextD text s).scanError = .UnexpectedEndOfString ∧
    (scanNextD text s).pos = s.pos + c.length ∧
    (scanNextD text s).value = [] := by
  have h1 : ¬ text.length ≤ s.pos := by omega
  obtain ⟨h2, h3⟩ := stringStart_branch_facts hq
  have heq := scanNext_string h1 h2 h3 hq
  rw [hfail, cnss_string_fail] at heq
  rw [scanNextD_eq heq]
  exact ⟨rfl, rfl, rfl, rfl⟩

/-- Outcome of scanNext when the number production fails: kind Unknown,
no scan error, the position advanced by the consumed length, and an
empty token value. -/
theorem scanNextD_number_fail {text : List Char} {s : ScanState} (h : s.pos < text.length)
    (hn : isNumberStartChar (charAt text s.pos) = true) {c : List Char}
    (hfail : scanJSON5Number (text.drop s.pos) = .failure c) :
    (scanNextD text s).token = .Unknown ∧
    (scanNextD text s).scanError = .None ∧
    (scanNextD text s).pos = s.pos + c.length ∧
    (scanNextD text s).value = [] := by
  have h1 : ¬ text.length ≤ s.pos := by omega
  obtain ⟨f2, f3, f4, f5, f6, f7, f8, f9, f10, f11⟩ := numberStart_branch_facts hn
  have heq := scanNext_number h1 f2 f3 f4 f5 f6 f7 f8 f9 f10 f11 hn
  rw [hfail, cnss_num_fail] at heq
  rw [scanNextD_eq heq]
  exact ⟨rfl, rfl, rfl, rfl⟩

/-- Outcome of scanNext when the number production succeeds: kind
NumericLiteral, the raw lexeme as value. -/
theorem scanNextD_number_succ {text : List Char} {s : ScanState} (h : s.pos < text.length)
    (hn : isNumberStartChar (charAt text s.pos) = true) {lex : List Char}
    (hsucc : scanJSON5Number (text.drop s.pos) = .success lex) :
    (scanNextD text s).token = .NumericLiteral ∧
    (scanNextD text s).scanError = .None ∧
    (scanNextD text s).pos = s.pos + lex.length ∧
    (scanNextD text s).value = lex := by
  have h1 : ¬ text.length ≤ s.pos := by omega
  obtain ⟨f2, f3, f4, f5, f6, f7, f8, f9, f10, f11⟩ := numberStart_branch_facts hn
  have heq := scanNext_number h1 f2 f3 f4 f5 f6 f7 f8 f9 f10 f11 hn
  rw [hsucc, cnss_num_succ] at heq
  rw [scanNextD_eq heq]
  exact ⟨rfl, rfl, rfl, rfl⟩

/-- Outcome of scanNext when the block-comment production fails: kind
BlockCommentTrivia, scan error UnexpectedEndOfComment. -/
theorem scanNextD_block_fail {text : List Char} {s : ScanState} (h : s.pos < text.length)
    (h4 : (charAt text s.pos).val = 0x2F)
    (h5 : ¬ (charAt text (s.pos + 1)).val = 0x2F)
    (h6 : (charAt text (s.pos + 1)).val = 0x2A) {c : List Char}
    (hfail : scanMultiLineComment (text.drop s.pos) = .failure c) :
    (scanNextD text s).token = .BlockCommentTrivia ∧
    (scanNextD text s).scanError = .UnexpectedEndOfComment ∧
    (scanNextD text s).pos = s.pos + c.length ∧
    (scanNextD text s).value = [] := by
  have h1 : ¬ text.length ≤ s.pos := by omega
  have hsl : charAt text s.pos = '/' := Char.ext (h4.trans (by decide))
  have h2 : isWhiteSpaceChar (charAt text s.pos) = false := by rw [hsl]; decide
  have h3 : isLineBreakChar (charAt text s.pos) = false := by rw [hsl]; decide
  have heq := scanNext_blockComment h1 h2 h3 h4 h5 h6
  rw [hfail, cnss_block_fail] at heq
  rw [scanNextD_eq heq]
  exact ⟨rfl, rfl, rfl, rfl⟩

/-- Outcome of scanNext when the line-comment production fails (the arm
exists although the production cannot fail when its guard holds): kind
LineCommentTrivia, scan error UnexpectedEndOfComment. -/
theorem scanNextD_line_fail {text : List Char} {s : ScanState} (h : s.pos < text.length)
    (h4 : (charAt text s.pos).val = 0x2F)
    (h5 : (charAt text (s.pos + 1)).val = 0x2F) {c : List Char}
    (hfail : scanSingleLineComment (text.drop s.pos) = .failure c) :
    (scanNextD text s).token = .LineCommentTrivia ∧
    (scanNextD text s).scanError = .UnexpectedEndOfComment ∧
    (scanNextD text s).pos = s.pos + c.length ∧
    (scanNextD text s).value = [] := by
  have h1 : ¬ text.length ≤ s.pos := by omega
  have hsl : charAt text s.pos = '/' := Char.ext (h4.trans (by decide))
  have h2 : isWhiteSpaceChar (charAt text s.pos) = false := by rw [hsl]; decide
  have h3 : isLineBreakChar (charAt text s.pos) = false := by rw [hsl]; decide
  have heq := scanNext_lineComment h1 h2 h3 h4 h5
  rw [hfail, cnss_line_fail] at heq
  rw [scanNextD_eq heq]
  exact ⟨rfl, rfl, rfl, rfl⟩

/-- Outcome of scanNext when the string production succeeds. -/
theorem scanNextD_string_succ {text : List Char} {s : ScanState} (h : s.pos < text.length)
    (hq : charAt text s.pos = dq ∨ charAt text s.pos = sq) {lex : List Char}
    (hsucc : scanJSON5String (text.drop s.pos) = .success lex) :
    (scanNextD text s).token = .StringLiteral ∧
    (scanNextD text s).scanError = .None ∧
    (scanNextD text s).pos = s.pos + lex.length ∧
    (scanNextD text s).value = decodeJSON5String lex := by
  have h1 : ¬ text.length ≤ s.pos := by omega
  obtain ⟨h2, h3⟩ := stringStart_branch_facts hq
  have heq := scanNext_string h1 h2 h3 hq
  rw [hsucc, cnss_string_succ] at heq
  rw [scanNextD_eq heq]
  exact ⟨rfl, rfl, rfl, rfl⟩

/-- Outcome of scanNext when the line-comment production succeeds. -/
theorem scanNextD_line_succ {text : List Char} {s : ScanState} (h : s.pos < text.length)
    (h4 : (charAt text s.pos).val = 0x2F)
    (h5 : (charAt text (s.pos + 1)).val = 0x2F) {lex : List Char}
    (hsucc : scanSingleLineComment (text.drop s.pos) = .success lex) :
    (scanNextD text s).token = .LineCommentTrivia ∧
    (scanNextD text s).scanError = .None ∧
    (scanNextD text s).pos = s.pos + lex.length ∧
    (scanNextD text s).value = lex := by
  have h1 : ¬ text.length ≤ s.pos := by omega
  have hsl : charAt text s.pos = '/' := Char.ext (h4.trans (by decide))
  have h2 : isWhiteSpaceChar (charAt text s.pos) = false := by rw [hsl]; decide
  have h3 : isLineBreakChar (charAt text s.pos) = false := by rw [hsl]; decide
  have heq := scanNext_lineComment h1 h2 h3 h4 h5
  rw [hsucc, cnss_line_succ] at heq
  rw [scanNextD_eq heq]
  exact ⟨rfl, rfl, rfl, rfl⟩

/-- Outcome of scanNext when the block-comment production succeeds. -/
theorem scanNextD_block_succ {text : List Char} {s : ScanState} (h : s.pos < text.length)
    (h4 : (charAt text s.pos).val = 0x2F)
    (h5 : ¬ (charAt text (s.pos + 1)).val = 0x2F)
    (h6 : (charAt text (s.pos + 1)).val = 0x2A) {lex : List Char}
    (hsucc : scanMultiLineComment (text.drop s.pos) = .success lex) :
    (scanNextD text s).token = .BlockCommentTrivia ∧
    (scanNextD text s).scanError = .None ∧
    (scanNextD text s).pos = s.pos + lex.length ∧
    (scanNextD text s).value = lex := by
  have h1 : ¬ text.length ≤ s.pos := by omega
  have hsl : charAt text s.pos = '/' := Char.ext (h4.trans (by decide))
  have h2 : isWhiteSpaceChar (charAt text s.pos) = false := by rw [hsl]; decide
  have h3 : isLineBreakChar (charAt text s.pos) = false := by rw [hsl]; decide
  have heq := scanNext_blockComment h1 h2 h3 h4 h5 h6
  rw [hsucc, cnss_block_succ] at heq
  rw [scanNextD_eq heq]
  exact ⟨rfl, rfl, rfl, rfl⟩

/-- The token kind, decoded value and scan error reported by scanNext
depend only on the text and the current position, not on the other
scanner state fields. -/
theorem scanNextD_components_eq (text : List Char) {s₁ s₂ : ScanState}
    (hpos : s₁.pos = s₂.pos) :
    (scanNextD text s₁).token = (scanNextD text s₂).token ∧
    (scanNextD text s₁).value = (scanNextD text s₂).value ∧
    (scanNextD text s₁).scanError = (scanNextD text s₂).scanError := by
  by_cases h1 : text.length ≤ s₁.pos
  · rw [scanNextD_eq (scanNext_eof h1), scanNextD_eq (scanNext_eof (hpos ▸ h1))]
    simp
  have he : s₁.pos < text.length := by omega
  by_cases h2 : isWhiteSpaceChar (charAt text s₁.pos) = true
  · rw [scanNextD_eq (scanNext_ws h1 h2),
      scanNextD_eq (scanNext_ws (hpos ▸ h1) (hpos ▸ h2))]
    simp [hpos]
  rw [Bool.not_eq_true] at h2
  by_cases h3 : isLineBreakChar (charAt text s₁.pos) = true
  · by_cases h4 : (charAt text s₁.pos).val = 0x0D ∧ (charAt text (s₁.pos + 1)).val = 0x0A
    · rw [scanNextD_eq (scanNext_crlf h1 h2 h3 h4),
        scanNextD_eq (scanNext_crlf (hpos ▸ h1) (hpos ▸ h2) (hpos ▸ h3) (hpos ▸ h4))]
      simp [hpos]
    · rw [scanNextD_eq (scanNext_lb h1 h2 h3 h4),
        scanNextD_eq (scanNext_lb (hpos ▸ h1) (hpos ▸ h2) (hpos ▸ h3) (hpos ▸ h4))]
      simp [hpos]
  rw [Bool.not_eq_true] at h3
  by_cases h4 : (charAt text s₁.pos).val = 0x7B
  · rw [scanNextD_eq (scanNext_openBrace h1 h2 h3 h4),
      scanNextD_eq (scanNext_openBrace (hpos ▸ h1) (hpos ▸ h2) (hpos ▸ h3) (hpos ▸ h4))]
    simp
  by_cases h5 : (charAt text s₁.pos).val = 0x7D
  · rw [scanNextD_eq (scanNext_closeBrace h1 h2 h3 h4 h5),
      scanNextD_eq (scanNext_closeBrace (hpos ▸ h1) (hpos ▸ h2) (hpos ▸ h3) (hpos ▸ h4)
        (hpos ▸ h5))]
    simp
  by_cases h6 : (charAt text s₁.pos).val = 0x5B
  · rw [scanNextD_eq (scanNext_openBracket h1 h2 h3 h4 h5 h6),
      scanNextD_eq (scanNext_openBracket (hpos ▸ h1) (hpos ▸ h2) (hpos ▸ h3) (hpos ▸ h4)
        (hpos ▸ h5) (hpos ▸ h6))]
    simp
  by_cases h7 : (charAt text s₁.pos).val = 0x5D
  · rw [scanNextD_eq (scanNext_closeBracket h1 h2 h3 h4 h5 h6 h7),
      scanNextD_eq (scanNext_closeBracket (hpos ▸ h1) (hpos ▸ h2) (hpos ▸ h3) (hpos ▸ h4)
        (hpos ▸ h5) (hpos ▸ h6) (hpos ▸ h7))]
    simp
  by_cases h8 : (charAt text s₁.pos).val = 0x3A
  · rw [scanNextD_eq (scanNext_colon h1 h2 h3 h4 h5 h6 h7 h8),
      scanNextD_eq (scanNext_colon (hpos ▸ h1) (hpos ▸ h2) (hpos ▸ h3) (hpos ▸ h4)
        (hpos ▸ h5) (hpos ▸ h6) (hpos ▸ h7) (hpos ▸ h8))]
    simp
  by_cases h9 : (charAt text s₁.pos).val = 0x2C
  · rw [scanNextD_eq (scanNext_comma h1 h2 h3 h4 h5 h6 h7 h8 h9),
      scanNextD_eq (scanNext_comma (hpos ▸ h1) (hpos ▸ h2) (hpos ▸ h3) (hpos ▸ h4)
        (hpos ▸ h5) (hpos ▸ h6) (hpos ▸ h7) (hpos ▸ h8) (hpos ▸ h9))]
    simp
  by_cases h10 : charAt text s₁.pos = dq ∨ charAt text s₁.pos = sq
  · cases hres : scanJSON5String (text.drop s₁.pos) with
    | success lex =>
        obtain ⟨t₁, e₁, p₁, v₁⟩ := scanNextD_string_succ he h10 hres
        obtain ⟨t₂, e₂, p₂, v₂⟩ :=
          scanNextD_string_succ (hpos ▸ he) (hpos ▸ h10) (hpos ▸ hres)
        exact ⟨t₁.trans t₂.symm, v₁.trans v₂.symm, e₁.trans e₂.symm⟩
    | failure c =>
        obtain ⟨t₁, e₁, p₁, v₁⟩ := scanNextD_string_fail he h10 hres
        obtain ⟨t₂, e₂, p₂, v₂⟩ :=
          scanNextD_string_fail (hpos ▸ he) (hpos ▸ h10) (hpos ▸ hres)
        exact ⟨t₁.trans t₂.symm, v₁.trans v₂.symm, e₁.trans e₂.symm⟩
  by_cases h11 : (charAt text s₁.pos).val = 0x2F
  · by_cases h12 : (charAt text (s₁.pos + 1)).val = 0x2F
    · cases hres : scanSingleLineComment (text.drop s₁.pos) with
      | success lex =>
          obtain ⟨t₁, e₁, p₁, v₁⟩ := scanNextD_line_succ he h11 h12 hres
          obtain ⟨t₂, e₂, p₂, v₂⟩ :=
            scanNextD_line_succ (hpos ▸ he) (hpos ▸ h11) (hpos ▸ h12) (hpos ▸ hres)
          exact ⟨t₁.trans t₂.symm, v₁.trans v₂.symm, e₁.trans e₂.symm⟩
      | failure c =>
          obtain ⟨t₁, e₁, p₁, v₁⟩ := scanNextD_line_fail he h11 h12 hres
          obtain ⟨t₂, e₂, p₂, v₂⟩ :=
            scanNextD_line_fail (hpos ▸ he) (hpos ▸ h11) (hpos ▸ h12) (hpos ▸ hres)
          exact ⟨t₁.trans t₂.symm, v₁.trans v₂.symm, e₁.trans e₂.symm⟩
    by_cases h13 : (charAt text (s₁.pos + 1)).val = 0x2A
    · cases hres : scanMultiLineComment (text.drop s₁.pos) with
      | success lex =>
          obtain ⟨t₁, e₁, p₁, v₁⟩ := scanNextD_block_succ he h11 h12 h13 hres
          obtain ⟨t₂, e₂, p₂, v₂⟩ :=
            scanNextD_block_succ (hpos ▸ he) (hpos ▸ h11) (hpos ▸ h12) (hpos ▸ h13)
              (hpos ▸ hres)
          exact ⟨t₁.trans t₂.symm, v₁.trans v₂.symm, e₁.trans e₂.symm⟩
      | failure c =>
          obtain ⟨t₁, e₁, p₁, v₁⟩ := scanNextD_block_fail he h11 h12 h13 hres
          obtain ⟨t₂, e₂, p₂, v₂⟩ :=
            scanNextD_block_fail (hpos ▸ he) (hpos ▸ h11) (hpos ▸ h12) (hpos ▸ h13)
              (hpos ▸ hres)
          exact ⟨t₁.trans t₂.symm, v₁.trans v₂.symm, e₁.trans e₂.symm⟩
    · rw [scanNextD_eq (scanNext_slash h1 h2 h3 h11 h12 h13),
        scanNextD_eq (scanNext_slash (hpos ▸ h1) (hpos ▸ h2) (hpos ▸ h3) (hpos ▸ h11)
          (hpos ▸ h12) (hpos ▸ h13))]
      simp [hpos]
  by_cases h12 : isNumberStartChar (charAt text s₁.pos) = true
  · cases hres : scanJSON5Number (text.drop s₁.pos) with
    | success lex =>
        obtain ⟨t₁, e₁, p₁, v₁⟩ := scanNextD_number_succ he h12 hres
        obtain ⟨t₂, e₂, p₂, v₂⟩ :=
          scanNextD_number_succ (hpos ▸ he) (hpos ▸ h12) (hpos ▸ hres)
        exact ⟨t₁.trans t₂.symm, v₁.trans v₂.symm, e₁.trans e₂.symm⟩
    | failure c =>
        obtain ⟨t₁, e₁, p₁, v₁⟩ := scanNextD_number_fail he h12 hres
        obtain ⟨t₂, e₂, p₂, v₂⟩ :=
          scanNextD_number_fail (hpos ▸ he) (hpos ▸ h12) (hpos ▸ hres)
        exact ⟨t₁.trans t₂.symm, v₁.trans v₂.symm, e₁.trans e₂.symm⟩
  rw [Bool.not_eq_true] at h12
  by_cases h13 : (unknownRun text s₁.pos).length ≠ 0
  · rw [scanNextD_eq (scanNext_word h1 h2 h3 h4 h5 h6 h7 h8 h9 h10 h11 h12 h13),
      scanNextD_eq (scanNext_word (hpos ▸ h1) (hpos ▸ h2) (hpos ▸ h3) (hpos ▸ h4)
        (hpos ▸ h5) (hpos ▸ h6) (hpos ▸ h7) (hpos ▸ h8) (hpos ▸ h9) (hpos ▸ h10)
        (hpos ▸ h11) (hpos ▸ h12) (hpos ▸ h13))]
    simp [hpos]
  · rw [scanNextD_eq (scanNext_unknownChar h1 h2 h3 h4 h5 h6 h7 h8 h9 h10 h11 h12 h13),
      scanNextD_eq (scanNext_unknownChar (hpos ▸ h1) (hpos ▸ h2) (hpos ▸ h3) (hpos ▸ h4)
        (hpos ▸ h5) (hpos ▸ h6) (hpos ▸ h7) (hpos ▸ h8) (hpos ▸ h9) (hpos ▸ h10)
        (hpos ▸ h11) (hpos ▸ h12) (hpos ▸ h13))]
    simp [hpos]

/-- Iterating scanNextD reaches EOF in at most one call more than the
number of remaining characters. -/
theorem scanNextD_iterate_eof (text : List Char) :
    ∀ (d : Nat) (s : ScanState), s.pos ≤ text.length → text.length - s.pos ≤ d →
      (((scanNextD text)^[d + 1]) s).token = .EOF := by
  intro d
  induction d with
  | zero =>
      intro s h1 h2
      have he : text.length ≤ s.pos := by omega
      rw [Function.iterate_one]
      exact (scanNextD_eof_facts text s he).1
  | succ n ih =>
      intro s h1 h2
      rw [Function.iterate_succ_apply]
      by_cases he : text.length ≤ s.pos
      · apply ih
        · rw [(scanNextD_eof_facts text s he).2.1]
          exact h1
        · rw [(scanNextD_eof_facts text s he).2.1]
          omega
      · push_neg at he
        obtain ⟨hlt, hle, _⟩ := scanNextD_master text s he
        exact ih _ hle (by omega)

/-- The trivia-skipping loop terminates: with fuel exceeding the number
of remaining characters, scanNextNonTrivia returns a state. -/
theorem scanNextNonTrivia_isSome (text : List Char) :
    ∀ (fuel : Nat) (s : ScanState), s.pos ≤ text.length → text.length - s.pos < fuel →
      (scanNextNonTrivia text fuel s).isSome := by
  intro fuel
  induction fuel with
  | zero => intro s h1 h2; omega
  | succ n ih =>
      intro s h1 h2
      simp only [scanNextNonTrivia]
      split
      · next htriv =>
          by_cases he : text.length ≤ s.pos
          · exfalso
            have hEOF := (scanNextD_eof_facts text s he).1
            rw [hEOF] at htriv
            simp [SyntaxKind.val] at htriv
          · push_neg at he
            obtain ⟨hlt, hle, _⟩ := scanNextD_master text s he
            exact ih _ hle (by omega)
      · simp

/-- The scan-state invariant along the iteration from the initial state:
the token line start never exceeds the position, the position never
exceeds the length, and from the first scan on the previous token line
start never exceeds the token offset. -/
theorem scanIterInvariant (text : List Char) (n : Nat) :
    (((scanNextD text)^[n]) initialState).tokenLineStartOffset ≤
      (((scanNextD text)^[n]) initialState).pos ∧
    (((scanNextD text)^[n]) initialState).pos ≤ text.length ∧
    (1 ≤ n →
      (((scanNextD text)^[n]) initialState).prevTokenLineStartOffset ≤
        (((scanNextD text)^[n]) initialState).tokenOffset) := by
  induction n with
  | zero =>
      exact ⟨by simp [initialState], by simp [initialState],
        fun h => absurd h (by decide)⟩
  | succ n ih =>
      rw [Function.iterate_succ_apply']
      obtain ⟨i1, i2, _⟩ := ih
      by_cases he : text.length ≤ (((scanNextD text)^[n]) initialState).pos
      · obtain ⟨_, hp, ho, hprev, htls⟩ :=
          scanNextD_eof_facts text (((scanNextD text)^[n]) initialState) he
        refine ⟨?_, ?_, fun _ => ?_⟩
        · rw [htls, hp]; exact i1
        · rw [hp]; exact i2
        · rw [hprev, ho]; omega
      · push_neg at he
        obtain ⟨hlt, hle, _, ho, hprev, htls⟩ :=
          scanNextD_master text (((scanNextD text)^[n]) initialState) he
        refine ⟨htls i1, hle, fun _ => ?_⟩
        rw [hprev, ho]
        exact i1

end scanner

namespace grammar

theorem gliteral_isPrefixOf {t input : List Char} (h : t.isPrefixOf input = true) :
    gliteral t input =
      { success := true, length := t.length, lineBreaksCount := 0,
        lengthToEndOfLastLineBreak := 0, syntaxKind := .Unknown } := by
  simp [gliteral, h]

theorem gliteral_not_isPrefixOf {t input : List Char} (h : t.isPrefixOf input = false) :
    gliteral t input = emptyFailure := by
  simp [gliteral, h]

theorem isPrefixOf_append (t rest : List Char) : t.isPrefixOf (t ++ rest) = true := by
  rw [List.isPrefixOf_iff_prefix]
  exact List.prefix_append t rest

/-- The first arm of combineOr: a successful first alternative is
returned unchanged. -/
theorem gor_first_success {f g : GScanner} {input : List Char}
    (hf : isSuccess (f input) = true) : gor f g input = f input := by
  simp [gor, combineOr, hf]

/-- The second arm of combineOr: when the first alternative fails and
the second succeeds, the second is returned. -/
theorem gor_second_success {f g : GScanner} {input : List Char}
    (hf : isSuccess (f input) = false) (hg : isSuccess (g input) = true) :
    gor f g input = g input := by
  simp [gor, combineOr, hf, hg]

/-- combineOr with two failures, the second not longer: the first
failure is returned. -/
theorem gor_both_fail_le {f g : GScanner} {input : List Char}
    (hf : isSuccess (f input) = false) (hg : isSuccess (g input) = false)
    (hlen : (g input).length ≤ (f input).length) : gor f g input = f input := by
  simp [gor, combineOr, hf, hg, hlen]

/-- combineOr with two failures, the second strictly longer: the second
failure is returned. -/
theorem gor_both_fail_gt {f g : GScanner} {input : List Char}
    (hf : isSuccess (f input) = false) (hg : isSuccess (g input) = false)
    (hlen : (f input).length < (g input).length) : gor f g input = g input := by
  simp [gor, combineOr, hf, hg]
  omega

/-- combineLongest ignores a right argument that fails consuming
nothing. -/
theorem glongest_right_fail0 {f g : GScanner} {input : List Char}
    (hgs : (g input).success = false) (hgl : (g input).length = 0) :
    glongest f g input = f input := by
  cases hf : (f input).success with
  | true => simp [glongest, combineLongest, isFailure, isSuccess, hf, hgs]
  | false => simp [glongest, combineLongest, isFailure, isSuccess, hf, hgs, hgl]

/-- combineLongest between two successes: the second wins unless the
first is strictly longer (ties go to the second). -/
theorem glongest_both_success_le {f g : GScanner} {input : List Char}
    (hf : (f input).success = true) (hg : (g input).success = true)
    (hlen : (f input).length ≤ (g input).length) :
    glongest f g input = g input := by
  simp [glongest, combineLongest, isFailure, isSuccess, hf, hg]
  omega

/-- combineLongest between two successes, the first strictly longer:
the first wins. -/
theorem glongest_both_success_gt {f g : GScanner} {input : List Char}
    (hf : (f input).success = true) (hg : (g input).success = true)
    (hlen : (g input).length < (f input).length) :
    glongest f g input = f input := by
  simp [glongest, combineLongest, isFailure, isSuccess, hf, hg, hlen]

/-- combineLongest with a failing left and a successful right: the
right wins. -/
theorem glongest_left_fail {f g : GScanner} {input : List Char}
    (hf : (f input).success = false) (hg : (g input).success = true) :
    glongest f g input = g input := by
  simp [glongest, combineLongest, isFailure, isSuccess, hf, hg]

theorem isPrefixOf_head_ne {a b : Char} {as bs : List Char} (h : ¬ a = b) :
    (a :: as).isPrefixOf (b :: bs) = false := by
  rw [List.isPrefixOf_cons₂, beq_eq_false_iff_ne.mpr h, Bool.false_and]

theorem strNull_chars : str "null" = 'n' :: 'u' :: 'l' :: 'l' :: [] := by decide

theorem strTrue_chars : str "true" = 't' :: 'r' :: 'u' :: 'e' :: [] := by decide

theorem strFalse_chars : str "false" = 'f' :: 'a' :: 'l' :: 's' :: 'e' :: [] := by decide

theorem strInfinity_chars :
    str "Infinity" = 'I' :: 'n' :: 'f' :: 'i' :: 'n' :: 'i' :: 't' :: 'y' :: [] := by decide

theorem strNaN_chars : str "NaN" = 'N' :: 'a' :: 'N' :: [] := by decide

/-- A keyword literal on non-matching input: a failure consuming
nothing. -/
theorem kwlit_fail0 {k : SyntaxKind} {kw input : List Char}
    (h : kw.isPrefixOf input = false) :
    (withSyntaxKind k (gliteral kw) input).success = false ∧
    (withSyntaxKind k (gliteral kw) input).length = 0 := by
  simp [withSyntaxKind, gliteral_not_isPrefixOf h, emptyFailure]

/-- A keyword literal on matching input: a success consuming exactly the
keyword, stamped with the keyword's kind. -/
theorem kwlit_succ (k : SyntaxKind) (kw rest : List Char) :
    withSyntaxKind k (gliteral kw) (kw ++ rest) =
      { success := true, length := kw.length, lineBreaksCount := 0,
        lengthToEndOfLastLineBreak := 0, syntaxKind := k } := by
  simp [withSyntaxKind, gliteral_isPrefixOf (isPrefixOf_append kw rest)]

/-- Stepping a combineLongest chain past a keyword literal that either
does not match or matches strictly shorter than the accumulated
success: the accumulated result is kept. -/
theorem glongest_kwlit_step {f : GScanner} {k : SyntaxKind} {kw input : List Char}
    (hf : (f input).success = true)
    (hlt : kw.isPrefixOf input = true → kw.length < (f input).length) :
    glongest f (withSyntaxKind k (gliteral kw)) input = f input := by
  by_cases hp : kw.isPrefixOf input = true
  · refine glongest_both_success_gt hf ?_ ?_
    · simp [withSyntaxKind, gliteral_isPrefixOf hp]
    · simp only [withSyntaxKind, gliteral_isPrefixOf hp]
      exact hlt hp
  · rw [Bool.not_eq_true] at hp
    obtain ⟨h1, h2⟩ := kwlit_fail0 hp
    exact glongest_right_fail0 h1 h2

/-- Stepping a combineLongest chain at the keyword literal that matches
with exactly the accumulated success's length: the keyword result wins
the tie. -/
theorem glongest_kwlit_tie {f : GScanner} {k : SyntaxKind} {kw rest : List Char}
    (hf : (f (kw ++ rest)).success = true)
    (hlen : (f (kw ++ rest)).length = kw.length) :
    glongest f (withSyntaxKind k (gliteral kw)) (kw ++ rest) =
      { success := true, length := kw.length, lineBreaksCount := 0,
        lengthToEndOfLastLineBreak := 0, syntaxKind := k } := by
  rw [← kwlit_succ k kw rest]
  refine glongest_both_success_le hf ?_ ?_
  · simp [kwlit_succ]
  · simp [kwlit_succ, hlen]

/-- Folding the whole json5Identifier keyword chain over an accumulated
success that each keyword either fails to match or matches strictly
shorter: the accumulated result survives. -/
theorem glongest_chain5_keep {f : GScanner} {input : List Char}
    (hs : (f input).success = true)
    (hn : (str "null").isPrefixOf input = true → (str "null").length < (f input).length)
    (ht : (str "true").isPrefixOf input = true → (str "true").length < (f input).length)
    (hfa : (str "false").isPrefixOf input = true → (str "false").length < (f input).length)
    (hi : (str "Infinity").isPrefixOf input = true →
      (str "Infinity").length < (f input).length)
    (hN : (str "NaN").isPrefixOf input = true → (str "NaN").length < (f input).length) :
    glongest
      (glongest (glongest (glongest (glongest f nullLiteral) trueLiteral) falseLiteral)
        infinityLiteral)
      nanLiteral input = f input := by
  have s1 : glongest f nullLiteral input = f input := glongest_kwlit_step hs hn
  have s2 : glongest (glongest f nullLiteral) trueLiteral input = f input :=
    (glongest_kwlit_step (by rw [s1]; exact hs)
      (fun hp => by rw [s1]; exact ht hp)).trans s1
  have s3 : glongest (glongest (glongest f nullLiteral) trueLiteral) falseLiteral input =
      f input :=
    (glongest_kwlit_step (by rw [s2]; exact hs)
      (fun hp => by rw [s2]; exact hfa hp)).trans s2
  have s4 : glongest
      (glongest (glongest (glongest f nullLiteral) trueLiteral) falseLiteral)
      infinityLiteral input = f input :=
    (glongest_kwlit_step (by rw [s3]; exact hs)
      (fun hp => by rw [s3]; exact hi hp)).trans s3
  exact (glongest_kwlit_step (by rw [s4]; exact hs)
    (fun hp => by rw [s4]; exact hN hp)).trans s4

/-- json5Identifier on input starting with the null keyword, when the
identifier-name match has exactly the keyword's length. -/
theorem json5Identifier_null {rest : List Char} {r : GResult}
    (hr : identifierName (str "null" ++ rest) = r) (hrs : r.success = true)
    (hrl : r.length = (str "null").length) :
    json5Identifier (str "null" ++ rest) =
      { success := true, length := (str "null").length, lineBreaksCount := 0,
        lengthToEndOfLastLineBreak := 0, syntaxKind := .NullKeyword } := by
  have h0 : withSyntaxKind .Identifier identifierName (str "null" ++ rest) =
      { r with syntaxKind := .Identifier } := by
    simp [withSyntaxKind, hr]
  have hT : (str "true").isPrefixOf (str "null" ++ rest) = false := by
    rw [strTrue_chars, strNull_chars, List.cons_append]
    exact isPrefixOf_head_ne (by decide)
  have hFa : (str "false").isPrefixOf (str "null" ++ rest) = false := by
    rw [strFalse_chars, strNull_chars, List.cons_append]
    exact isPrefixOf_head_ne (by decide)
  have hIn : (str "Infinity").isPrefixOf (str "null" ++ rest) = false := by
    rw [strInfinity_chars, strNull_chars, List.cons_append]
    exact isPrefixOf_head_ne (by decide)
  have hNa : (str "NaN").isPrefixOf (str "null" ++ rest) = false := by
    rw [strNaN_chars, strNull_chars, List.cons_append]
    exact isPrefixOf_head_ne (by decide)
  have s1 : glongest (withSyntaxKind .Identifier identifierName) nullLiteral
      (str "null" ++ rest) =
      { success := true, length := (str "null").length, lineBreaksCount := 0,
        lengthToEndOfLastLineBreak := 0, syntaxKind := .NullKeyword } :=
    glongest_kwlit_tie (by simp [h0, hrs]) (by simp [h0, hrl])
  have s2 : glongest (glongest (withSyntaxKind .Identifier identifierName) nullLiteral)
      trueLiteral (str "null" ++ rest) =
      { success := true, length := (str "null").length, lineBreaksCount := 0,
        lengthToEndOfLastLineBreak := 0, syntaxKind := .NullKeyword } :=
    (glongest_kwlit_step (by simp [s1]) (fun hp => absurd hp (by simp [hT]))).trans s1
  have s3 : glongest
      (glongest (glongest (withSyntaxKind .Identifier identifierName) nullLiteral)
        trueLiteral)
      falseLiteral (str "null" ++ rest) =
      { success := true, length := (str "null").length, lineBreaksCount := 0,
        lengthToEndOfLastLineBreak := 0, syntaxKind := .NullKeyword } :=
    (glongest_kwlit_step (by simp [s2]) (fun hp => absurd hp (by simp [hFa]))).trans s2
  have s4 : glongest
      (glongest
        (glongest (glongest (withSyntaxKind .Identifier identifierName) nullLiteral)
          trueLiteral)
        falseLiteral)
      infinityLiteral (str "null" ++ rest) =
      { success := true, length := (str "null").length, lineBreaksCount := 0,
        lengthToEndOfLastLineBreak := 0, syntaxKind := .NullKeyword } :=
    (glongest_kwlit_step (by simp [s3]) (fun hp => absurd hp (by simp [hIn]))).trans s3
  exact (glongest_kwlit_step (by simp [s4]) (fun hp => absurd hp (by simp [hNa]))).trans s4

/-- json5Identifier on input starting with the true keyword, when the
identifier-name match has exactly the keyword's length. -/
theorem json5Identifier_true {rest : List Char} {r : GResult}
    (hr : identifierName (str "true" ++ rest) = r) (hrs : r.success = true)
    (hrl : r.length = (str "true").length) :
    json5Identifier (str "true" ++ rest) =
      { success := true, length := (str "true").length, lineBreaksCount := 0,
        lengthToEndOfLastLineBreak := 0, syntaxKind := .TrueKeyword } := by
  have h0 : withSyntaxKind .Identifier identifierName (str "true" ++ rest) =
      { r with syntaxKind := .Identifier } := by
    simp [withSyntaxKind, hr]
  have hNu : (str "null").isPrefixOf (str "true" ++ rest) = false := by
    rw [strNull_chars, strTrue_chars, List.cons_append]
    exact isPrefixOf_head_ne (by decide)
  have hFa : (str "false").isPrefixOf (str "true" ++ rest) = false := by
    rw [strFalse_chars, strTrue_chars, List.cons_append]
    exact isPrefixOf_head_ne (by decide)
  have hIn : (str "Infinity").isPrefixOf (str "true" ++ rest) = false := by
    rw [strInfinity_chars, strTrue_chars, List.cons_append]
    exact isPrefixOf_head_ne (by decide)
  have hNa : (str "NaN").isPrefixOf (str "true" ++ rest) = false := by
    rw [strNaN_chars, strTrue_chars, List.cons_append]
    exact isPrefixOf_head_ne (by decide)
  have s1 : glongest (withSyntaxKind .Identifier identifierName) nullLiteral
      (str "true" ++ rest) = { r with syntaxKind := SyntaxKind.Identifier } :=
    (glongest_kwlit_step (by simp [h0, hrs]) (fun hp => absurd hp (by simp [hNu]))).trans
      h0
  have s2 : glongest (glongest (withSyntaxKind .Identifier identifierName) nullLiteral)
      trueLiteral (str "true" ++ rest) =
      { success := true, length := (str "true").length, lineBreaksCount := 0,
        lengthToEndOfLastLineBreak := 0, syntaxKind := .TrueKeyword } :=
    glongest_kwlit_tie (by simp [s1, hrs]) (by simp [s1, hrl])
  have s3 : glongest
      (glongest (glongest (withSyntaxKind .Identifier identifierName) nullLiteral)
        trueLiteral)
      falseLiteral (str "true" ++ rest) =
      { success := true, length := (str "true").length, lineBreaksCount := 0,
        lengthToEndOfLastLineBreak := 0, syntaxKind := .TrueKeyword } :=
    (glongest_kwlit_step (by simp [s2]) (fun hp => absurd hp (by simp [hFa]))).trans s2
  have s4 : glongest
      (glongest
        (glongest (glongest (withSyntaxKind .Identifier identifierName) nullLiteral)
          trueLiteral)
        falseLiteral)
      infinityLiteral (str "true" ++ rest) =
      { success := true, length := (str "true").length, lineBreaksCount := 0,
        lengthToEndOfLastLineBreak := 0, syntaxKind := .TrueKeyword } :=
    (glongest_kwlit_step (by simp [s3]) (fun hp => absurd hp (by simp [hIn]))).trans s3
  exact (glongest_kwlit_step (by simp [s4]) (fun hp => absurd hp (by simp [hNa]))).trans s4

/-- json5Identifier on input starting with the false keyword, when the
identifier-name match has exactly the keyword's length. -/
theorem json5Identifier_false {rest : List Char} {r : GResult}
    (hr : identifierName (str "false" ++ rest) = r) (hrs : r.success = true)
    (hrl : r.length = (str "false").length) :
    json5Identifier (str "false" ++ rest) =
      { success := true, length := (str "false").length, lineBreaksCount := 0,
        lengthToEndOfLastLineBreak := 0, syntaxKind := .FalseKeyword } := by
  have h0 : withSyntaxKind .Identifier identifierName (str "false" ++ rest) =
      { r with syntaxKind := .Identifier } := by
    simp [withSyntaxKind, hr]
  have hNu : (str "null").isPrefixOf (str "false" ++ rest) = false := by
    rw [strNull_chars, strFalse_chars, List.cons_append]
    exact isPrefixOf_head_ne (by decide)
  have hT : (str "true").isPrefixOf (str "false" ++ rest) = false := by
    rw [strTrue_chars, strFalse_chars, List.cons_append]
    exact isPrefixOf_head_ne (by decide)
  have hIn : (str "Infinity").isPrefixOf (str "false" ++ rest) = false := by
    rw [strInfinity_chars, strFalse_chars, List.cons_append]
    exact isPrefixOf_head_ne (by decide)
  have hNa : (str "NaN").isPrefixOf (str "false" ++ rest) = false := by
    rw [strNaN_chars, strFalse_chars, List.cons_append]
    exact isPrefixOf_head_ne (by decide)
  have s1 : glongest (withSyntaxKind .Identifier identifierName) nullLiteral
      (str "false" ++ rest) = { r with syntaxKind := SyntaxKind.Identifier } :=
    (glongest_kwlit_step (by simp [h0, hrs]) (fun hp => absurd hp (by simp [hNu]))).trans
      h0
  have s2 : glongest (glongest (withSyntaxKind .Identifier identifierName) nullLiteral)
      trueLiteral (str "false" ++ rest) =
      { r with syntaxKind := SyntaxKind.Identifier } :=
    (glongest_kwlit_step (by simp [s1, hrs]) (fun hp => absurd hp (by simp [hT]))).trans
      s1
  have s3 : glongest
      (glongest (glongest (withSyntaxKind .Identifier identifierName) nullLiteral)
        trueLiteral)
      falseLiteral (str "false" ++ rest) =
      { success := true, length := (str "false").length, lineBreaksCount := 0,
        lengthToEndOfLastLineBreak := 0, syntaxKind := .FalseKeyword } :=
    glongest_kwlit_tie (by simp [s2, hrs]) (by simp [s2, hrl])
  have s4 : glongest
      (glongest
        (glongest (glongest (withSyntaxKind .Identifier identifierName) nullLiteral)
          trueLiteral)
        falseLiteral)
      infinityLiteral (str "false" ++ rest) =
      { success := true, length := (str "false").length, lineBreaksCount := 0,
        lengthToEndOfLastLineBreak := 0, syntaxKind := .FalseKeyword } :=
    (glongest_kwlit_step (by simp [s3]) (fun hp => absurd hp (by simp [hIn]))).trans s3
  exact (glongest_kwlit_step (by simp [s4]) (fun hp => absurd hp (by simp [hNa]))).trans s4

/-- json5Identifier on input starting with the Infinity keyword, when
the identifier-name match has exactly the keyword's length. -/
theorem json5Identifier_infinity {rest : List Char} {r : GResult}
    (hr : identifierName (str "Infinity" ++ rest) = r) (hrs : r.success = true)
    (hrl : r.length = (str "Infinity").length) :
    json5Identifier (str "Infinity" ++ rest) =
      { success := true, length := (str "Infinity").length, lineBreaksCount := 0,
        lengthToEndOfLastLineBreak := 0, syntaxKind := .InfinityKeyword } := by
  have h0 : withSyntaxKind .Identifier identifierName (str "Infinity" ++ rest) =
      { r with syntaxKind := .Identifier } := by
    simp [withSyntaxKind, hr]
  have hNu : (str "null").isPrefixOf (str "Infinity" ++ rest) = false := by
    rw [strNull_chars, strInfinity_chars, List.cons_append]
    exact isPrefixOf_head_ne (by decide)
  have hT : (str "true").isPrefixOf (str "Infinity" ++ rest) = false := by
    rw [strTrue_chars, strInfinity_chars, List.cons_append]
    exact isPrefixOf_head_ne (by decide)
  have hFa : (str "false").isPrefixOf (str "Infinity" ++ rest) = false := by
    rw [strFalse_chars, strInfinity_chars, List.cons_append]
    exact isPrefixOf_head_ne (by decide)
  have hNa : (str "NaN").isPrefixOf (str "Infinity" ++ rest) = false := by
    rw [strNaN_chars, strInfinity_chars, List.cons_append]
    exact isPrefixOf_head_ne (by decide)
  have s1 : glongest (withSyntaxKind .Identifier identifierName) nullLiteral
      (str "Infinity" ++ rest) = { r with syntaxKind := SyntaxKind.Identifier } :=
    (glongest_kwlit_step (by simp [h0, hrs]) (fun hp => absurd hp (by simp [hNu]))).trans
      h0
  have s2 : glongest (glongest (withSyntaxKind .Identifier identifierName) nullLiteral)
      trueLiteral (str "Infinity" ++ rest) =
      { r with syntaxKind := SyntaxKind.Identifier } :=
    (glongest_kwlit_step (by simp [s1, hrs]) (fun hp => absurd hp (by simp [hT]))).trans
      s1
  have s3 : glongest
      (glongest (glongest (withSyntaxKind .Identifier identifierName) nullLiteral)
        trueLiteral)
      falseLiteral (str "Infinity" ++ rest) =
      { r with syntaxKind := SyntaxKind.Identifier } :=
    (glongest_kwlit_step (by simp [s2, hrs]) (fun hp => absurd hp (by simp [hFa]))).trans
      s2
  have s4 : glongest
      (glongest
        (glongest (glongest (withSyntaxKind .Identifier identifierName) nullLiteral)
          trueLiteral)
        falseLiteral)
      infinityLiteral (str "Infinity" ++ rest) =
      { success := true, length := (str "Infinity").length, lineBreaksCount := 0,
        lengthToEndOfLastLineBreak := 0, syntaxKind := .InfinityKeyword } :=
    glongest_kwlit_tie (by simp [s3, hrs]) (by simp [s3, hrl])
  exact (glongest_kwlit_step (by simp [s4]) (fun hp => absurd hp (by simp [hNa]))).trans s4

/-- json5Identifier on input starting with the NaN keyword, when the
identifier-name match has exactly the keyword's length. -/
theorem json5Identifier_nan {rest : List Char} {r : GResult}
    (hr : identifierName (str "NaN" ++ rest) = r) (hrs : r.success = true)
    (hrl : r.length = (str "NaN").length) :
    json5Identifier (str "NaN" ++ rest) =
      { success := true, length := (str "NaN").length, lineBreaksCount := 0,
        lengthToEndOfLastLineBreak := 0, syntaxKind := .NaNKeyword } := by
  have h0 : withSyntaxKind .Identifier identifierName (str "NaN" ++ rest) =
      { r with syntaxKind := .Identifier } := by
    simp [withSyntaxKind, hr]
  have hNu : (str "null").isPrefixOf (str "NaN" ++ rest) = false := by
    rw [strNull_chars, strNaN_chars, List.cons_append]
    exact isPrefixOf_head_ne (by decide)
  have hT : (str "true").isPrefixOf (str "NaN" ++ rest) = false := by
    rw [strTrue_chars, strNaN_chars, List.cons_append]
    exact isPrefixOf_head_ne (by decide)
  have hFa : (str "false").isPrefixOf (str "NaN" ++ rest) = false := by
    rw [strFalse_chars, strNaN_chars, List.cons_append]
    exact isPrefixOf_head_ne (by decide)
  have hIn : (str "Infinity").isPrefixOf (str "NaN" ++ rest) = false := by
    rw [strInfinity_chars, strNaN_chars, List.cons_append]
    exact isPrefixOf_head_ne (by decide)
  have s1 : glongest (withSyntaxKind .Identifier identifierName) nullLiteral
      (str "NaN" ++ rest) = { r with syntaxKind := SyntaxKind.Identifier } :=
    (glongest_kwlit_step (by simp [h0, hrs]) (fun hp => absurd hp (by simp [hNu]))).trans
      h0
  have s2 : glongest (glongest (withSyntaxKind .Identifier identifierName) nullLiteral)
      trueLiteral (str "NaN" ++ rest) =
      { r with syntaxKind := SyntaxKind.Identifier } :=
    (glongest_kwlit_step (by simp [s1, hrs]) (fun hp => absurd hp (by simp [hT]))).trans
      s1
  have s3 : glongest
      (glongest (glongest (withSyntaxKind .Identifier identifierName) nullLiteral)
        trueLiteral)
      falseLiteral (str "NaN" ++ rest) =
      { r with syntaxKind := SyntaxKind.Identifier } :=
    (glongest_kwlit_step (by simp [s2, hrs]) (fun hp => absurd hp (by simp [hFa]))).trans
      s2
  have s4 : glongest
      (glongest
        (glongest (glongest (withSyntaxKind .Identifier identifierName) nullLiteral)
          trueLiteral)
        falseLiteral)
      infinityLiteral (str "NaN" ++ rest) =
      { r with syntaxKind := SyntaxKind.Identifier } :=
    (glongest_kwlit_step (by simp [s3, hrs]) (fun hp => absurd hp (by simp [hIn]))).trans
      s3
  exact glongest_kwlit_tie (by simp [s4, hrs]) (by simp [s4, hrl])

end grammar

/-- Claim C1: scan never throws.  The scanNext step is total on every
text and state (the embedded partial functions return some state), and
computeNextScanState is total on exactly the four kinds scanNext passes
it (StringLiteral, NumericLiteral, LineCommentTrivia and
BlockCommentTrivia), so the throwing default branch is unreachable from
scan. -/
theorem scan_total_no_throw :
    (∀ (text : List Char) (s : scanner.ScanState),
      (scanner.scanNext text s).isSome = true) ∧
    (∀ (p : scanner.ScanState) (r : scanner.SResult),
      (scanner.computeNextScanState p r .StringLiteral).isSome = true ∧
      (scanner.computeNextScanState p r .NumericLiteral).isSome = true ∧
      (scanner.computeNextScanState p r .LineCommentTrivia).isSome = true ∧
      (scanner.computeNextScanState p r .BlockCommentTrivia).isSome = true) :=
  ⟨fun text s => scanner.scanNext_isSome text s,
   fun p r =>
    ⟨scanner.cnss_isSome_string p r, scanner.cnss_isSome_num p r,
     scanner.cnss_isSome_line p r, scanner.cnss_isSome_block p r⟩⟩

/-- Claim C2 (amended): when a lexical production fails at the current
position, the scanner advances by the LENGTH OF THE INPUT THE
PRODUCTION CONSUMED (not by exactly one code unit), emits the failing
production's default tag (Unknown for numbers, the production's own
kind for strings and comments) with the appropriate scan error, and
sets the decoded token value to the EMPTY string (not to the failing
character). -/
theorem failure_resync_semantics (text : List Char) (s : scanner.ScanState)
    (h : s.pos < text.length) :
    (∀ c : List Char,
      (scanner.charAt text s.pos = dq ∨ scanner.charAt text s.pos = sq) →
      scanner.scanJSON5String (text.drop s.pos) = .failure c →
      (scanner.scanNextD text s).token = .StringLiteral ∧
      (scanner.scanNextD text s).scanError = .UnexpectedEndOfString ∧
      (scanner.scanNextD text s).pos = s.pos + c.length ∧
      (scanner.scanNextD text s).value = []) ∧
    (∀ c : List Char,
      scanner.isNumberStartChar (scanner.charAt text s.pos) = true →
      scanner.scanJSON5Number (text.drop s.pos) = .failure c →
      (scanner.scanNextD text s).token = .Unknown ∧
      (scanner.scanNextD text s).scanError = .None ∧
      (scanner.scanNextD text s).pos = s.pos + c.length ∧
      (scanner.scanNextD text s).value = []) ∧
    (∀ c : List Char,
      (scanner.charAt text s.pos).val = 0x2F →
      (scanner.charAt text (s.pos + 1)).val = 0x2F →
      scanner.scanSingleLineComment (text.drop s.pos) = .failure c →
      (scanner.scanNextD text s).token = .LineCommentTrivia ∧
      (scanner.scanNextD text s).scanError = .UnexpectedEndOfComment ∧
      (scanner.scanNextD text s).pos = s.pos + c.length ∧
      (scanner.scanNextD text s).value = []) ∧
    (∀ c : List Char,
      (scanner.charAt text s.pos).val = 0x2F →
      ¬ (scanner.charAt text (s.pos + 1)).val = 0x2F →
      (scanner.charAt text (s.pos + 1)).val = 0x2A →
      scanner.scanMultiLineComment (text.drop s.pos) = .failure c →
      (scanner.scanNextD text s).token = .BlockCommentTrivia ∧
      (scanner.scanNextD text s).scanError = .UnexpectedEndOfComment ∧
      (scanner.scanNextD text s).pos = s.pos + c.length ∧
      (scanner.scanNextD text s).value = []) :=
  ⟨fun _ hq hf => scanner.scanNextD_string_fail h hq hf,
   fun _ hn hf => scanner.scanNextD_number_fail h hn hf,
   fun _ h4 h5 hf => scanner.scanNextD_line_fail h h4 h5 hf,
   fun _ h4 h5 h6 hf => scanner.scanNextD_block_fail h h4 h5 h6 hf⟩

theorem failure_resync_semantics_witness :
    scanner.initialState.pos < (str "\u0022ab").length ∧
    (scanner.charAt (str "\u0022ab") scanner.initialState.pos = dq ∨
      scanner.charAt (str "\u0022ab") scanner.initialState.pos = sq) ∧
    scanner.scanJSON5String ((str "\u0022ab").drop scanner.initialState.pos) =
      .failure (str "\u0022ab") ∧
    ((scanner.scanNextD (str "\u0022ab") scanner.initialState).token = .StringLiteral ∧
     (scanner.scanNextD (str "\u0022ab") scanner.initialState).scanError =
       .UnexpectedEndOfString ∧
     (scanner.scanNextD (str "\u0022ab") scanner.initialState).pos =
       scanner.initialState.pos + (str "\u0022ab").length ∧
     (scanner.scanNextD (str "\u0022ab") scanner.initialState).value = []) :=
  ⟨by decide, by decide, by decide,
   (failure_resync_semantics (str "\u0022ab") scanner.initialState (by decide)).1
     (str "\u0022ab") (by decide) (by decide)⟩

/-- The spec's per-character resync policy is refuted by the input
consisting of a double quote, `a` and `b`: the string production fails
after consuming all three characters, so the scanner advances three
code units (not one) past the token start, and the decoded value is
empty (not the single character). -/
theorem resync_not_one_char :
    scanner.scanJSON5String ((str "\u0022ab").drop scanner.initialState.pos) =
      .failure (str "\u0022ab") ∧
    ¬ (scanner.scanNextD (str "\u0022ab") scanner.initialState).pos =
        scanner.initialState.pos + 1 ∧
    ¬ (scanner.scanNextD (str "\u0022ab") scanner.initialState).value =
        [scanner.charAt (str "\u0022ab") scanner.initialState.pos] := by
  refine ⟨by decide, by decide, by decide⟩

/-- Claim C3: a token re-scans to an equivalent token.  Scanning from
any state whose position is in range, then setting the position to the
reported token offset and scanning again, reproduces the same token
kind, the same decoded value and the same scan error. -/
theorem rescan_token_equivalent (text : List Char) (s : scanner.ScanState)
    (h : s.pos ≤ text.length) :
    (scanner.scanNextD text
        (scanner.setPosition (scanner.scanNextD text s)
          ((scanner.scanNextD text s).tokenOffset))).token =
      (scanner.scanNextD text s).token ∧
    (scanner.scanNextD text
        (scanner.setPosition (scanner.scanNextD text s)
          ((scanner.scanNextD text s).tokenOffset))).value =
      (scanner.scanNextD text s).value ∧
    (scanner.scanNextD text
        (scanner.setPosition (scanner.scanNextD text s)
          ((scanner.scanNextD text s).tokenOffset))).scanError =
      (scanner.scanNextD text s).scanError := by
  have ho : (scanner.scanNextD text s).tokenOffset = s.pos := by
    by_cases he : text.length ≤ s.pos
    · rw [(scanner.scanNextD_eof_facts text s he).2.2.1]
      omega
    · push_neg at he
      exact (scanner.scanNextD_master text s he).2.2.2.1
  have hpos : (scanner.setPosition (scanner.scanNextD text s)
      ((scanner.scanNextD text s).tokenOffset)).pos = s.pos := by
    simp [scanner.setPosition, ho]
  exact scanner.scanNextD_components_eq text hpos

theorem rescan_token_equivalent_witness :
    scanner.initialState.pos ≤ (str "ab").length ∧
    (scanner.scanNextD (str "ab")
        (scanner.setPosition (scanner.scanNextD (str "ab") scanner.initialState)
          ((scanner.scanNextD (str "ab") scanner.initialState).tokenOffset))).token =
      (scanner.scanNextD (str "ab") scanner.initialState).token :=
  ⟨by decide,
   (rescan_token_equivalent (str "ab") scanner.initialState (by decide)).1⟩

/-- Claim C4: an unterminated string (the string production fails, as
it does at end of input or at an un-escaped line terminator inside the
string) yields token kind StringLiteral with scan error
UnexpectedEndOfString; concretely both for a string cut off by the end
of input and for one broken by a raw line feed. -/
theorem unterminated_string_reports_error :
    (∀ (text : List Char) (s : scanner.ScanState), s.pos < text.length →
      (scanner.charAt text s.pos = dq ∨ scanner.charAt text s.pos = sq) →
      ∀ c : List Char, scanner.scanJSON5String (text.drop s.pos) = .failure c →
        (scanner.scanNextD text s).token = .StringLiteral ∧
        (scanner.scanNextD text s).scanError = .UnexpectedEndOfString) ∧
    ((scanner.scanNextD (str "\u0022a") scanner.initialState).token = .StringLiteral ∧
     (scanner.scanNextD (str "\u0022a") scanner.initialState).scanError =
       .UnexpectedEndOfString) ∧
    ((scanner.scanNextD (str "\u0022a\nb\u0022") scanner.initialState).token =
       .StringLiteral ∧
     (scanner.scanNextD (str "\u0022a\nb\u0022") scanner.initialState).scanError =
       .UnexpectedEndOfString) := by
  refine ⟨fun text s h hq c hf => ?_, by decide, by decide⟩
  obtain ⟨h1, h2, _, _⟩ := scanner.scanNextD_string_fail h hq hf
  exact ⟨h1, h2⟩

theorem unterminated_string_reports_error_witness :
    scanner.initialState.pos < (str "\u0022q").length ∧
    (scanner.charAt (str "\u0022q") scanner.initialState.pos = dq ∨
      scanner.charAt (str "\u0022q") scanner.initialState.pos = sq) ∧
    scanner.scanJSON5String ((str "\u0022q").drop scanner.initialState.pos) =
      .failure (str "\u0022q") ∧
    ((scanner.scanNextD (str "\u0022q") scanner.initialState).token = .StringLiteral ∧
     (scanner.scanNextD (str "\u0022q") scanner.initialState).scanError =
       .UnexpectedEndOfString) :=
  ⟨by decide, by decide, by decide,
   unterminated_string_reports_error.1 (str "\u0022q") scanner.initialState (by decide)
     (by decide) (str "\u0022q") (by decide)⟩

/-- Claim C5: a failing numeric production yields kind Unknown with the
position advanced over exactly the consumed input, and complete numeric
parts are emitted as their own Number tokens: `01` scans as Number `0`
then Number `1`, `-` and `.` scan as Unknown, and `+-1` scans as
Unknown (over `+`) then Number `-1`. -/
theorem numeric_failure_tokens :
    (∀ (text : List Char) (s : scanner.ScanState), s.pos < text.length →
      scanner.isNumberStartChar (scanner.charAt text s.pos) = true →
      ∀ c : List Char, scanner.scanJSON5Number (text.drop s.pos) = .failure c →
        (scanner.scanNextD text s).token = .Unknown ∧
        (scanner.scanNextD text s).pos = s.pos + c.length) ∧
    ((scanner.scanNextD (str "01") scanner.initialState).token = .NumericLiteral ∧
     (scanner.scanNextD (str "01") scanner.initialState).value = str "0" ∧
     (scanner.scanNextD (str "01") scanner.initialState).pos = 1 ∧
     (scanner.scanNextD (str "01")
        (scanner.scanNextD (str "01") scanner.initialState)).token = .NumericLiteral ∧
     (scanner.scanNextD (str "01")
        (scanner.scanNextD (str "01") scanner.initialState)).value = str "1") ∧
    ((scanner.scanNextD (str "-") scanner.initialState).token = .Unknown ∧
     (scanner.scanNextD (str "-") scanner.initialState).pos = 1) ∧
    ((scanner.scanNextD (str ".") scanner.initialState).token = .Unknown ∧
     (scanner.scanNextD (str ".") scanner.initialState).pos = 1) ∧
    ((scanner.scanNextD (str "+-1") scanner.initialState).token = .Unknown ∧
     (scanner.scanNextD (str "+-1") scanner.initialState).pos = 1 ∧
     (scanner.scanNextD (str "+-1")
        (scanner.scanNextD (str "+-1") scanner.initialState)).token = .NumericLiteral ∧
     (scanner.scanNextD (str "+-1")
        (scanner.scanNextD (str "+-1") scanner.initialState)).value = str "-1") := by
  refine ⟨fun text s h hn c hf => ?_, by decide, by decide, by decide, by decide⟩
  obtain ⟨h1, _, h3, _⟩ := scanner.scanNextD_number_fail h hn hf
  exact ⟨h1, h3⟩

theorem numeric_failure_tokens_witness :
    scanner.initialState.pos < (str "+-1").length ∧
    scanner.isNumberStartChar
      (scanner.charAt (str "+-1") scanner.initialState.pos) = true ∧
    scanner.scanJSON5Number ((str "+-1").drop scanner.initialState.pos) =
      .failure (str "+") ∧
    ((scanner.scanNextD (str "+-1") scanner.initialState).token = .Unknown ∧
     (scanner.scanNextD (str "+-1") scanner.initialState).pos =
       scanner.initialState.pos + (str "+").length) :=
  ⟨by decide, by decide, by decide,
   numeric_failure_tokens.1 (str "+-1") scanner.initialState (by decide) (by decide)
     (str "+") (by decide)⟩

/-- Claim C6: keywords outrank generic identifiers in json5Identifier.
When the identifier-name match has exactly a keyword's length on input
starting with that keyword, json5Identifier returns the keyword's
syntax kind; when the identifier-name match is strictly longer than
every keyword matching at the same position, it returns kind
Identifier. -/
theorem json5Identifier_keyword_precedence :
    (∀ (kw : List Char) (k : SyntaxKind), (kw, k) ∈ grammar.json5IdentifierKeywords →
      ∀ (rest : List Char) (r : grammar.GResult),
        grammar.identifierName (kw ++ rest) = r → r.success = true →
        r.length = kw.length →
        (grammar.json5Identifier (kw ++ rest)).syntaxKind = k ∧
        (grammar.json5Identifier (kw ++ rest)).success = true ∧
        (grammar.json5Identifier (kw ++ rest)).length = kw.length) ∧
    (∀ (input : List Char) (r : grammar.GResult),
      grammar.identifierName input = r → r.success = true →
      (∀ (kw : List Char) (k : SyntaxKind),
        (kw, k) ∈ grammar.json5IdentifierKeywords →
        kw.isPrefixOf input = true → kw.length < r.length) →
      (grammar.json5Identifier input).syntaxKind = SyntaxKind.Identifier ∧
      (grammar.json5Identifier input).success = true ∧
      (grammar.json5Identifier input).length = r.length) := by
  constructor
  · intro kw k hmem rest r hr hrs hrl
    simp only [grammar.json5IdentifierKeywords, List.mem_cons,
      List.not_mem_nil, or_false] at hmem
    rcases hmem with h | h | h | h | h
    · injection h with h1 h2
      subst h1; subst h2
      have hj := grammar.json5Identifier_null hr hrs hrl
      exact ⟨by rw [hj], by rw [hj], by rw [hj]⟩
    · injection h with h1 h2
      subst h1; subst h2
      have hj := grammar.json5Identifier_true hr hrs hrl
      exact ⟨by rw [hj], by rw [hj], by rw [hj]⟩
    · injection h with h1 h2
      subst h1; subst h2
      have hj := grammar.json5Identifier_false hr hrs hrl
      exact ⟨by rw [hj], by rw [hj], by rw [hj]⟩
    · injection h with h1 h2
      subst h1; subst h2
      have hj := grammar.json5Identifier_infinity hr hrs hrl
      exact ⟨by rw [hj], by rw [hj], by rw [hj]⟩
    · injection h with h1 h2
      subst h1; subst h2
      have hj := grammar.json5Identifier_nan hr hrs hrl
      exact ⟨by rw [hj], by rw [hj], by rw [hj]⟩
  · intro input r hr hrs hkw
    have h0 : grammar.withSyntaxKind .Identifier grammar.identifierName input =
        { r with syntaxKind := SyntaxKind.Identifier } := by
      simp [grammar.withSyntaxKind, hr]
    have hj : grammar.json5Identifier input =
        grammar.withSyntaxKind .Identifier grammar.identifierName input :=
      grammar.glongest_chain5_keep (by simp [h0, hrs])
        (fun hp => by
          rw [h0]; exact hkw (str "null") SyntaxKind.NullKeyword (by decide) hp)
        (fun hp => by
          rw [h0]; exact hkw (str "true") SyntaxKind.TrueKeyword (by decide) hp)
        (fun hp => by
          rw [h0]; exact hkw (str "false") SyntaxKind.FalseKeyword (by decide) hp)
        (fun hp => by
          rw [h0]; exact hkw (str "Infinity") SyntaxKind.InfinityKeyword (by decide) hp)
        (fun hp => by
          rw [h0]; exact hkw (str "NaN") SyntaxKind.NaNKeyword (by decide) hp)
    refine ⟨by rw [hj, h0], ?_, by rw [hj, h0]⟩
    rw [hj, h0]
    exact hrs

theorem json5Identifier_keyword_precedence_witness :
    ((str "null", SyntaxKind.NullKeyword) ∈ grammar.json5IdentifierKeywords) ∧
    (grammar.identifierName (str "null" ++ [])).success = true ∧
    (grammar.identifierName (str "null" ++ [])).length = (str "null").length ∧
    (grammar.json5Identifier (str "null" ++ [])).syntaxKind = SyntaxKind.NullKeyword :=
  ⟨by decide, by decide, by decide,
   (json5Identifier_keyword_precedence.1 (str "null") SyntaxKind.NullKeyword
     (by decide) [] (grammar.identifierName (str "null" ++ [])) rfl (by decide)
     (by decide)).1⟩

/-- Claim C7: the or combinator returns the first alternative's result
when it succeeds; with the first failing and the second succeeding it
returns the second's success; when both fail it returns the failure
that consumed the most input, the first on a tie. -/
theorem or_first_match_most_consumed (f g : grammar.GScanner) (input : List Char) :
    (grammar.isSuccess (f input) = true → grammar.gor f g input = f input) ∧
    (grammar.isSuccess (f input) = false → grammar.isSuccess (g input) = true →
      grammar.gor f g input = g input) ∧
    (grammar.isSuccess (f input) = false → grammar.isSuccess (g input) = false →
      ((g input).length ≤ (f input).length → grammar.gor f g input = f input) ∧
      ((f input).length < (g input).length → grammar.gor f g input = g input)) :=
  ⟨fun hf => grammar.gor_first_success hf,
   fun hf hg => grammar.gor_second_success hf hg,
   fun hf hg =>
     ⟨fun hlen => grammar.gor_both_fail_le hf hg hlen,
      fun hlen => grammar.gor_both_fail_gt hf hg hlen⟩⟩

theorem or_first_match_most_consumed_witness :
    grammar.isSuccess
      (grammar.gand (grammar.gliteral (str "a")) (grammar.gliteral (str "b"))
        (str "ac")) = false ∧
    grammar.isSuccess (grammar.gliteral (str "xy") (str "ac")) = false ∧
    (grammar.gliteral (str "xy") (str "ac")).length <
      (grammar.gand (grammar.gliteral (str "a")) (grammar.gliteral (str "b"))
        (str "ac")).length ∧
    grammar.gor (grammar.gliteral (str "xy"))
        (grammar.gand (grammar.gliteral (str "a")) (grammar.gliteral (str "b")))
        (str "ac") =
      grammar.gand (grammar.gliteral (str "a")) (grammar.gliteral (str "b"))
        (str "ac") :=
  ⟨by decide, by decide, by decide,
   ((or_first_match_most_consumed (grammar.gliteral (str "xy"))
       (grammar.gand (grammar.gliteral (str "a")) (grammar.gliteral (str "b")))
       (str "ac")).2.2 (by decide) (by decide)).2 (by decide)⟩

/-- Claim C8: for every token produced by the scanner (any positive
number of scan steps from the initial state), the reported start
character is the token offset minus the previous token line start
offset, that value is non-negative, and the subtracted line start
offset is at most the token offset. -/
theorem token_start_character_nonneg (text : List Char) (n : Nat) (hn : 1 ≤ n) :
    scanner.getTokenStartCharacter (((scanner.scanNextD text)^[n]) scanner.initialState) =
      ((((scanner.scanNextD text)^[n]) scanner.initialState).tokenOffset : Int) -
        ((((scanner.scanNextD text)^[n]) scanner.initialState).prevTokenLineStartOffset :
          Int) ∧
    0 ≤ scanner.getTokenStartCharacter
        (((scanner.scanNextD text)^[n]) scanner.initialState) ∧
    (((scanner.scanNextD text)^[n]) scanner.initialState).prevTokenLineStartOffset ≤
      (((scanner.scanNextD text)^[n]) scanner.initialState).tokenOffset := by
  have hinv := (scanner.scanIterInvariant text n).2.2 hn
  refine ⟨rfl, ?_, hinv⟩
  simp only [scanner.getTokenStartCharacter]
  omega

theorem token_start_character_nonneg_witness :
    1 ≤ 1 ∧
    (0 ≤ scanner.getTokenStartCharacter
        (((scanner.scanNextD (str "a"))^[1]) scanner.initialState) ∧
     (((scanner.scanNextD (str "a"))^[1]) scanner.initialState).prevTokenLineStartOffset ≤
       (((scanner.scanNextD (str "a"))^[1]) scanner.initialState).tokenOffset) :=
  ⟨by decide,
   ⟨(token_start_character_nonneg (str "a") 1 (by decide)).2.1,
    (token_start_character_nonneg (str "a") 1 (by decide)).2.2⟩⟩

/-- Claim C9 (amended): the repository has no disallowComments parse
option and no InvalidCommentToken parse error code.  ParseOptions is
fully determined by its only field allowEmptyContent, the twelve listed
codes exhaust ParseErrorCode, and none of them prints as
InvalidCommentToken. -/
theorem parse_options_and_error_codes :
    (∀ o₁ o₂ : ParseOptions, o₁.allowEmptyContent = o₂.allowEmptyContent → o₁ = o₂) ∧
    (∀ c : ParseErrorCode, c ∈ allParseErrorCodes) ∧
    (∀ c : ParseErrorCode, printParseErrorCode c ≠ "InvalidCommentToken") := by
  refine ⟨?_, ?_, ?_⟩
  · intro o₁ o₂ h
    cases o₁
    cases o₂
    exact congrArg ParseOptions.mk h
  · intro c
    cases c <;> simp [allParseErrorCodes]
  · intro c
    cases c <;> decide

theorem parse_options_and_error_codes_witness :
    ParseOptions.mk none = ParseOptions.mk none ∧
    ParseErrorCode.InvalidSymbol ∈ allParseErrorCodes ∧
    printParseErrorCode ParseErrorCode.InvalidSymbol ≠ "InvalidCommentToken" :=
  ⟨parse_options_and_error_codes.1 (ParseOptions.mk none) (ParseOptions.mk none) rfl,
   parse_options_and_error_codes.2.1 ParseErrorCode.InvalidSymbol,
   parse_options_and_error_codes.2.2 ParseErrorCode.InvalidSymbol⟩

/-- The spec's disallowComments option and InvalidCommentToken error
code do not exist in the repository: the error-code enum's printer
never produces that name, and the enum has exactly twelve members. -/
theorem no_invalid_comment_token :
    ((allParseErrorCodes.map printParseErrorCode).contains "InvalidCommentToken")
      = false ∧
    allParseErrorCodes.length = 12 := by
  refine ⟨by decide, by decide⟩

/-- Claim C10: scan returns EOF exactly when the position is at or past
the end (leaving the position unchanged); otherwise it strictly
increases the position while keeping it at most the text length;
iterating scan from any in-range position reaches EOF within
remaining-length-plus-one calls; and the trivia-skipping loop of
scanNextNonTrivia terminates (returns a state) whenever its fuel
exceeds the remaining length. -/
theorem scan_progress_terminates :
    (∀ (text : List Char) (s : scanner.ScanState),
      (text.length ≤ s.pos →
        (scanner.scanNextD text s).token = .EOF ∧
        (scanner.scanNextD text s).pos = s.pos) ∧
      (s.pos < text.length →
        s.pos < (scanner.scanNextD text s).pos ∧
        (scanner.scanNextD text s).pos ≤ text.length ∧
        (scanner.scanNextD text s).token ≠ .EOF)) ∧
    (∀ (text : List Char) (s : scanner.ScanState), s.pos ≤ text.length →
      (((scanner.scanNextD text)^[text.length - s.pos + 1]) s).token = .EOF) ∧
    (∀ (text : List Char) (fuel : Nat) (s : scanner.ScanState),
      s.pos ≤ text.length → text.length - s.pos < fuel →
      (scanner.scanNextNonTrivia text fuel s).isSome = true) := by
  refine ⟨fun text s => ⟨fun he => ?_, fun hlt => ?_⟩, fun text s h => ?_,
    fun text fuel s h1 h2 => scanner.scanNextNonTrivia_isSome text fuel s h1 h2⟩
  · obtain ⟨h1, h2, _⟩ := scanner.scanNextD_eof_facts text s he
    exact ⟨h1, h2⟩
  · obtain ⟨h1, h2, h3, _⟩ := scanner.scanNextD_master text s hlt
    exact ⟨h1, h2, h3⟩
  · exact scanner.scanNextD_iterate_eof text (text.length - s.pos) s h (le_refl _)

theorem scan_progress_terminates_witness :
    scanner.initialState.pos ≤ (str "a").length ∧
    (((scanner.scanNextD (str "a"))^[(str "a").length - scanner.initialState.pos + 1])
        scanner.initialState).token = .EOF :=
  ⟨by decide,
   scan_progress_terminates.2.1 (str "a") scanner.initialState (by decide)⟩

end JSON5
